import Mathlib

/-!
# Verification of the SVG-to-Excalidraw translation

A shallow embedding of `src/idaes_connectivity/excalidraw_model.py`
(class `Diagram`, in particular the classmethod `Diagram.from_svg`),
together with proofs of the specification claims about it.

Modelling conventions, chosen once and used throughout:

* Numeric attribute values (results of Python `float(...)` on SVG
  attribute strings) are modelled as exact rationals `ℚ`; the claims
  under study are structural (which tokens/fields feed which output
  fields) and do not depend on IEEE-754 rounding.
* Python `int(float(x))` truncates toward zero; this is `pyTrunc`.
* `Diagram._element_id` draws 21 random characters from a 62-symbol
  alphabet.  We model the allocator as an injective fresh-id supply
  (a counter threaded through the translation context), which is the
  standard idealisation of a collision-free random id source.
* `Diagram._image_id` is the SHA-1 hex digest of the payload string;
  we model it as a deterministic content-addressed digest function
  (`image_id`).  Only determinism and use as a dictionary key matter
  to the claims.
* Python dictionaries are association lists.  `svg_xc_map`,
  `shape_bounds` and `shape_elt_map` are only ever written with
  `d[k] = v`, which we model by prepending (a lookup finds the most
  recent binding first, exactly the overwrite semantics).  The
  `files` dictionary must also preserve entry count and order for the
  blob-map claims, so it uses `dictInsert` (replace-or-append).
* Python dict values are heap objects: the element dictionaries held
  in `model.elements` and in `shape_elt_map` alias each other, and
  later groups mutate earlier rectangles via
  `shape_elt_map[...]["boundElements"].append(...)`.  We model the
  heap explicitly: `Ctx.store` is the object heap, `Ctx.elements`
  and `Ctx.shapeEltMap` hold indices into it.
* Fixed style constants of the emitted dictionaries (strokeColor,
  roughness, opacity, timestamps, ...) are not claim-relevant and are
  omitted from `Element`; every field that any claim mentions, and
  every field that distinguishes the element kinds, is kept.
* Python exceptions (`ValueError`, `KeyError`, `NameError`,
  `AttributeError`) abort the whole translation; they are modelled by
  `Except XErr`.  The constructors follow the error taxonomy of the
  specification: `pathFormat` for the three explicit path raises,
  `unresolvedReference` for a failed `svg_xc_map` lookup, etc.
-/

/-- Truncation toward zero, the behaviour of Python `int()` on a float. -/
def pyTrunc (q : ℚ) : Int :=
  if 0 ≤ q then ⌊q⌋ else -⌊-q⌋

/-- The ASCII whitespace class of Python regular expressions. -/
def isPySpace (c : Char) : Bool :=
  c == ' ' || c == '\t' || c == '\n' || c == '\x0d' || c == '\x0b' || c == '\x0c'

/-- Value of a digit string (most significant first). -/
def digitsVal (l : List Char) : Nat :=
  l.foldl (fun a c => a * 10 + (c.toNat - 48)) 0

/-- Python `str.strip`: drop leading and trailing whitespace. -/
def pyStrip (s : String) : String :=
  String.mk (((s.data.dropWhile fun c => isPySpace c).reverse.dropWhile
      fun c => isPySpace c).reverse)

/-- Python `float(...)` on a decimal token: optional sign, digits with
optional fraction, optional exponent.  Returns the exact rational value
of the literal. -/
def parseFloat (s : String) : Option ℚ :=
  let l := s.data
  let sl : ℚ × List Char :=
    match l with
    | '-' :: r => (-1, r)
    | '+' :: r => (1, r)
    | _ => (1, l)
  let intPart := sl.2.takeWhile Char.isDigit
  let l1 := sl.2.dropWhile Char.isDigit
  let fr : List Char × List Char :=
    match l1 with
    | '.' :: r => (r.takeWhile Char.isDigit, r.dropWhile Char.isDigit)
    | _ => ([], l1)
  if intPart.isEmpty && fr.1.isEmpty then none
  else
    let mant : ℚ := (digitsVal intPart : ℚ) + (digitsVal fr.1 : ℚ) / ((10 : ℚ) ^ fr.1.length)
    match fr.2 with
    | [] => some (sl.1 * mant)
    | 'e' :: r =>
        let es : Int × List Char :=
          match r with
          | '-' :: rr => (-1, rr)
          | '+' :: rr => (1, rr)
          | _ => (1, r)
        let eds := es.2.takeWhile Char.isDigit
        let r2 := es.2.dropWhile Char.isDigit
        if eds.isEmpty || !r2.isEmpty then none
        else some (sl.1 * mant * (10 : ℚ) ^ (es.1 * (digitsVal eds : Int)))
    | 'E' :: r =>
        let es : Int × List Char :=
          match r with
          | '-' :: rr => (-1, rr)
          | '+' :: rr => (1, rr)
          | _ => (1, r)
        let eds := es.2.takeWhile Char.isDigit
        let r2 := es.2.dropWhile Char.isDigit
        if eds.isEmpty || !r2.isEmpty then none
        else some (sl.1 * mant * (10 : ℚ) ^ (es.1 * (digitsVal eds : Int)))
    | _ => none

/-- Separator class of the path tokenizer: the regex class of comma and
space used in `re.split` on the path data. -/
def isPathSep (c : Char) : Bool := c == ',' || c == ' '

mutual

/-- Accumulating phase of `re.split` on runs of commas and spaces:
`acc` holds the current token, reversed. -/
def splitTok : List Char → List Char → List String
  | [], acc => [String.mk acc.reverse]
  | c :: rest, acc =>
      if isPathSep c then String.mk acc.reverse :: splitSkip rest
      else splitTok rest (c :: acc)

/-- Skipping phase of the tokenizer: inside a separator run. -/
def splitSkip : List Char → List String
  | [] => [""]
  | c :: rest =>
      if isPathSep c then splitSkip rest
      else splitTok rest [c]

end

/-- Python `re.split` on one-or-more commas/spaces, as applied to the
path data attribute (line 298 of the source). -/
def tokenizePath (s : String) : List String :=
  splitTok s.data []

/-- List indexing with an explicit default (Python-style subscript for
the in-range cases; claims always stay in range). -/
def nth {α : Type} (d : α) : List α → Nat → α
  | [], _ => d
  | a :: _, 0 => a
  | _ :: rest, n + 1 => nth d rest n

/-- First-match association-list lookup: Python dict read under the
prepend-on-write representation. -/
def assoc {α β : Type} [DecidableEq α] : List (α × β) → α → Option β
  | [], _ => none
  | (k, v) :: rest, a => if a = k then some v else assoc rest a

/-- Drop a maximal run of regex whitespace. -/
def dropPySpaces (l : List Char) : List Char :=
  l.dropWhile fun c => isPySpace c

/-- Match the font-size pattern at the start of the character list:
literally "font-size:", optional whitespace, a maximal nonempty digit
run, then literally "px"; yields the numeral. -/
def fontAt : List Char → Option Nat
  | 'f' :: 'o' :: 'n' :: 't' :: '-' :: 's' :: 'i' :: 'z' :: 'e' :: ':' :: rest =>
      let r := dropPySpaces rest
      let ds := r.takeWhile Char.isDigit
      let r2 := r.dropWhile Char.isDigit
      if ds.isEmpty then none
      else
        match r2 with
        | 'p' :: 'x' :: _ => some (digitsVal ds)
        | _ => none
  | _ => none

/-- Leftmost occurrence search for the font-size pattern; this is the
`re.search` on the inline style attribute (line 229 of the source). -/
def findFontSizeAux : List Char → Option Nat
  | [] => none
  | c :: rest =>
      match fontAt (c :: rest) with
      | some n => some n
      | none => findFontSizeAux rest

/-- Font size extraction from an inline style string. -/
def findFontSize (s : String) : Option Nat :=
  findFontSizeAux s.data

/-- After the first captured name: maximal whitespace, the literal
arrow, maximal whitespace; yields the remainder. -/
def matchArrowAfter (l : List Char) : Option (List Char) :=
  match dropPySpaces l with
  | '-' :: '>' :: r => some (dropPySpaces r)
  | _ => none

/-- Largest index k with 1 ≤ k at which the run holds a closing
parenthesis; this is the greedy backtracking of the second capture
group followed by the literal parenthesis. -/
def lastParenIdx (run : List Char) : Option Nat :=
  (List.range run.length).foldl
    (fun acc k => if nth ' ' run k = ')' ∧ 1 ≤ k then some k else acc) none

/-- Match the second capture group (one or more non-whitespace
characters, greedy) followed by a closing parenthesis. -/
def g2At (l : List Char) : Option String :=
  let run := l.takeWhile fun c => !isPySpace c
  match lastParenIdx run with
  | some k => some (String.mk (run.take k))
  | none => none

/-- Backtracking search for the first capture group: try the longest
nonempty non-whitespace prefix first, then on failure shorter ones;
after the group match the arrow and the second group.  `taken` holds
the group candidate, reversed. -/
def g1Search (taken : List Char) : List Char → Option (String × String)
  | [] =>
      if taken.isEmpty then none
      else
        match matchArrowAfter [] with
        | some r2 =>
            match g2At r2 with
            | some g2 => some (String.mk taken.reverse, g2)
            | none => none
        | none => none
  | c :: rs =>
      let deeper : Option (String × String) :=
        if isPySpace c then none else g1Search (c :: taken) rs
      match deeper with
      | some res => some res
      | none =>
          if taken.isEmpty then none
          else
            match matchArrowAfter (c :: rs) with
            | some r2 =>
                match g2At r2 with
                | some g2 => some (String.mk taken.reverse, g2)
                | none => none
            | none => none

/-- Attempt the full endpoint pattern at this position: an opening
parenthesis, then the two captured names around the arrow. -/
def matchEdgeAt : List Char → Option (String × String)
  | '(' :: rest => g1Search [] rest
  | _ => none

/-- Leftmost-match search for the endpoint pattern (the `re.search` on a
group identifier, line 277 of the source). -/
def searchEdge : List Char → Option (String × String)
  | [] => none
  | c :: rest =>
      match matchEdgeAt (c :: rest) with
      | some r => some r
      | none => searchEdge rest

/-- Extract the source and target names from an edge group identifier. -/
def parseEdgeId (s : String) : Option (String × String) :=
  searchEdge s.data

/-- A deterministic content-addressed digest of the payload string,
modelling `Diagram._image_id` (the SHA-1 hex digest of the UTF-8 bytes
of the data URL).  Only determinism and injectivity-in-practice are
used by the program; we render a polynomial hash in hexadecimal. -/
def image_id (data : String) : String :=
  String.mk (Nat.toDigits 16 (data.foldl (fun h c => (h * 257 + c.toNat) % (2 ^ 160)) 7))

/-- Bounding box, the `Bounds` namedtuple of the source. -/
structure Bounds where
  x : ℚ
  y : ℚ
  width : ℚ
  height : ℚ
deriving DecidableEq

/-- A back-reference entry of a `boundElements` list. -/
structure BoundElement where
  type : String
  id : Nat
deriving DecidableEq

/-- A start or end binding of an arrow (fields focus and gap are the
constants 0 and 1 in the source; fixedPoint is always null). -/
structure Binding where
  elementId : Nat
  focus : ℚ
  gap : ℚ
deriving DecidableEq

/-- One emitted scene element.  Carries every field the claims mention
and every field distinguishing the four element kinds; constant style
fields of the source dictionaries are omitted (see the header). -/
structure Element where
  id : Nat
  type : String
  x : ℚ
  y : ℚ
  width : ℚ
  height : ℚ
  groupIds : List Nat
  boundElements : Option (List BoundElement)
  containerId : Option Nat
  points : List (ℚ × ℚ)
  text : Option String
  fontSize : Option ℚ
  startBinding : Option Binding
  endBinding : Option Binding
  fileId : Option String
deriving DecidableEq

instance : Inhabited Element :=
  ⟨⟨0, "", 0, 0, 0, 0, [], none, none, [], none, none, none, none, none⟩⟩

/-- One entry of the `files` blob map. -/
structure ImageFile where
  mimeType : String
  id : String
  dataURL : String
deriving DecidableEq

/-- The fixed editor-state block. -/
structure AppState where
  gridSize : Nat
  gridStep : Nat
  gridModeEnabled : Bool
  viewBackgroundColor : String
deriving DecidableEq

/-- The produced scene document (the `Model` of the source, with the
element dictionaries resolved out of the heap). -/
structure Scene where
  type : String
  version : Nat
  source : String
  elements : List Element
  appState : AppState
  files : List (String × ImageFile)
deriving DecidableEq

/-- A rectangle inside a shape container, with its parsed attributes. -/
structure RectA where
  x : ℚ
  y : ℚ
  width : ℚ
  height : ℚ
deriving DecidableEq

/-- An embedded image inside a shape container. -/
structure ImageA where
  x : ℚ
  y : ℚ
  width : ℚ
  height : ℚ
  href : String
deriving DecidableEq

/-- A text label child of a top-level group. -/
structure TextA where
  x : ℚ
  y : ℚ
  style : String
  content : String
deriving DecidableEq

/-- A path child of a top-level group; the data attribute may be
absent. -/
structure PathA where
  d : Option String
deriving DecidableEq

/-- A child of a shape container group. -/
inductive ShapeChild where
  | rect (x y width height : ℚ)
  | image (x y width height : ℚ) (href : String)
  | other
deriving DecidableEq

/-- A direct child of a top-level group: an inner group with class
"shape", an inner group with some other class, a text label, a path, or
anything else (ignored). -/
inductive SubItem where
  | shapeGroup (children : List ShapeChild)
  | otherGroup
  | text (x y : ℚ) (style : String) (content : String)
  | path (d : Option String)
  | other
deriving DecidableEq

/-- A direct child of the svg canvas: a group with its identifier, or
any other element (ignored by the walker). -/
inductive SvgItem where
  | g (id : String) (subs : List SubItem)
  | other
deriving DecidableEq

/-- The error taxonomy.  Each constructor corresponds to one Python
exception site of `Diagram.from_svg`:
`malformedDocument` = missing svg tag (line 71);
`missingShape` = shape container without rect or image (line 121);
`lineEndpointsNotFound` = identifier without endpoint pattern (line 279);
`unresolvedReference` = KeyError on the name map (lines 283, 285);
`missingBounds` = KeyError on the bounds map (lines 289, 290);
`pathFormat` = the three explicit path raises (lines 300, 305, 309);
`floatParse` = ValueError from float conversion of a token;
`missingShapeElt` = KeyError on the element map (lines 369, 372);
`boundAppendNone` = append on a null boundElements list;
`textNoBounds` = NameError reading never-assigned bounds (line 240). -/
inductive XErr where
  | malformedDocument
  | missingShape
  | lineEndpointsNotFound (itemId : String)
  | unresolvedReference (name : String)
  | missingBounds (eltId : Nat)
  | pathFormat (items : List String)
  | floatParse (token : String)
  | missingShapeElt (eltId : Nat)
  | boundAppendNone
  | textNoBounds
deriving DecidableEq

/-- The translation context: the id supply, the three lookup
dictionaries, the object heap (`store`), the scene element order
(`elements`, heap indices), the blob map, and the loop-carried local
variable `bounds` of the Python function (`lastBounds`). -/
structure Ctx where
  nextId : Nat
  svgXcMap : List (String × Nat)
  shapeBounds : List (Nat × Bounds)
  shapeEltMap : List (Nat × Nat)
  store : List Element
  elements : List Nat
  files : List (String × ImageFile)
  lastBounds : Option Bounds
deriving DecidableEq

/-- The initial context of one run. -/
def initCtx : Ctx :=
  ⟨0, [], [], [], [], [], [], none⟩

/-- The result of classifying the children of one top-level group: the
loop over subitems at lines 110 to 127 of the source. -/
structure Classified where
  rect : Option RectA
  line : Option PathA
  text : Option TextA
  image : Option ImageA
deriving DecidableEq

/-- Inner scan of a shape container: the first rectangle or image child
wins (the inner loop breaks at either). -/
def findShapeElt : List ShapeChild → Option (RectA ⊕ ImageA)
  | [] => none
  | ShapeChild.rect x y w h :: _ => some (Sum.inl ⟨x, y, w, h⟩)
  | ShapeChild.image x y w h href :: _ => some (Sum.inr ⟨x, y, w, h, href⟩)
  | ShapeChild.other :: rest => findShapeElt rest

/-- Classification loop over the subitems of a top-level group.  A
shape container updates the rect or image slot; if after scanning a
shape container both slots are still empty, the translation fails (the
raise at line 121).  Text and path children overwrite their slots (last
one wins); other children are ignored. -/
def classify : List SubItem → Option RectA → Option PathA → Option TextA → Option ImageA →
    Except XErr Classified
  | [], r, l, t, i => .ok ⟨r, l, t, i⟩
  | SubItem.shapeGroup cs :: rest, r, l, t, i =>
      match findShapeElt cs with
      | some (Sum.inl ra) => classify rest (some ra) l t i
      | some (Sum.inr ia) => classify rest r l t (some ia)
      | none =>
          if r.isNone ∧ i.isNone then .error .missingShape
          else classify rest r l t i
  | SubItem.otherGroup :: rest, r, l, t, i => classify rest r l t i
  | SubItem.text x y style content :: rest, r, l, _t, _i =>
      classify rest r l (some ⟨x, y, style, content⟩) _i
  | SubItem.path d :: rest, r, _l, t, i => classify rest r (some ⟨d⟩) t i
  | SubItem.other :: rest, r, l, t, i => classify rest r l t i

/-- The rectangle element dictionary (lines 138 to 165), restricted to
the modelled fields. -/
def mkRectElt (xcId : Nat) (b : Bounds) : Element :=
  { id := xcId, type := "rectangle", x := b.x, y := b.y,
    width := b.width, height := b.height,
    groupIds := [], boundElements := some [], containerId := none,
    points := [], text := none, fontSize := none,
    startBinding := none, endBinding := none, fileId := none }

/-- The image element dictionary (lines 185 to 215). -/
def mkImageElt (xcId : Nat) (b : Bounds) (fid : String) : Element :=
  { id := xcId, type := "image", x := b.x, y := b.y,
    width := b.width, height := b.height,
    groupIds := [], boundElements := some [], containerId := none,
    points := [], text := none, fontSize := none,
    startBinding := none, endBinding := none, fileId := some fid }

/-- The text element dictionary (lines 237 to 270): vertically centered
on the shape bounds with the fixed margin 4, width padded by the font
size, height one and a half font sizes. -/
def mkTextElt (textId : Nat) (b : Bounds) (fontSize : Nat) (value : String) : Element :=
  { id := textId, type := "text", x := b.x,
    y := b.y + b.height / 2 - 4 - (fontSize : ℚ) / 2,
    width := b.width + (fontSize : ℚ), height := (fontSize : ℚ) * 3 / 2,
    groupIds := [], boundElements := none, containerId := none,
    points := [], text := some value, fontSize := some (fontSize : ℚ),
    startBinding := none, endBinding := none, fileId := none }

/-- Start bounds, end bounds and point list of a connector. -/
structure PathGeom where
  startB : Bounds
  endB : Bounds
  points : List (ℚ × ℚ)
deriving DecidableEq

/-- The straight-line fallback point list (lines 292 to 296): start
offset on the source shape, then the single relative waypoint. -/
def straightPointList (startB endB : Bounds) : List (ℚ × ℚ) :=
  let dx := endB.x - startB.x
  let startx := if dx > 0 then startB.width else 0
  let dy := endB.y - startB.y
  let starty := startB.height / 2
  [(startx, starty), (dx, dy)]

/-- Float conversion of one token, lifted to the error monad. -/
def parseTok (s : String) : Except XErr ℚ :=
  match parseFloat s with
  | some q => .ok q
  | none => .error (.floatParse s)

/-- Parse explicit cubic path data (lines 298 to 325): tokenize on
comma/space runs, check the token count and the move-to and
cubic-curve-to markers, then build the three-point relative polyline
from the start anchor, the first control point and the final
endpoint. -/
def parsePathGeom (dstr : String) : Except XErr PathGeom :=
  let toks := tokenizePath dstr
  if toks.length < 10 then .error (.pathFormat toks)
  else if nth "" toks 0 ≠ "M" then .error (.pathFormat toks)
  else if nth "" toks 3 ≠ "C" then .error (.pathFormat toks)
  else
    match parseTok (nth "" toks 1) with
    | .error e => .error e
    | .ok t1 =>
    match parseTok (nth "" toks 2) with
    | .error e => .error e
    | .ok t2 =>
    match parseTok (nth "" toks 8) with
    | .error e => .error e
    | .ok t8 =>
    match parseTok (nth "" toks 9) with
    | .error e => .error e
    | .ok t9 =>
    match parseTok (nth "" toks 4) with
    | .error e => .error e
    | .ok x4 =>
    match parseTok (nth "" toks 5) with
    | .error e => .error e
    | .ok y5 =>
    match parseTok (nth "" toks (toks.length - 2)) with
    | .error e => .error e
    | .ok xm2 =>
    match parseTok (nth "" toks (toks.length - 1)) with
    | .error e => .error e
    | .ok ym1 =>
      .ok ⟨⟨t1, t2, 0, 0⟩, ⟨t8, t9, 0, 0⟩,
           [(0, 0), (x4 - t1, y5 - t2), (xm2 - t1, ym1 - t2)]⟩

/-- The arrow element dictionary (lines 327 to 367). -/
def mkLineElt (lineId : Nat) (g : PathGeom) (startShapeId endShapeId : Nat) : Element :=
  { id := lineId, type := "arrow", x := g.startB.x, y := g.startB.y,
    width := |g.endB.x - g.startB.x|, height := |g.endB.y - g.startB.y|,
    groupIds := [], boundElements := none, containerId := none,
    points := g.points, text := none, fontSize := none,
    startBinding := some ⟨startShapeId, 0, 1⟩,
    endBinding := some ⟨endShapeId, 0, 1⟩, fileId := none }

/-- Replace the element at one heap index. -/
def storeModify (f : Element → Element) : List Element → Nat → List Element
  | [], _ => []
  | e :: rest, 0 => f e :: rest
  | e :: rest, n + 1 => e :: storeModify f rest n

/-- Append one back-reference to an element's boundElements list. -/
def appendBoundElt (b : BoundElement) (e : Element) : Element :=
  { e with boundElements := e.boundElements.map fun l => l ++ [b] }

/-- The mutation `shape_elt_map[sid]["boundElements"].append(b)`:
resolve the shape id through the element map, require a non-null
boundElements list, and append in place on the heap. -/
def appendBoundAt (ctx : Ctx) (sid : Nat) (b : BoundElement) : Except XErr Ctx :=
  match assoc ctx.shapeEltMap sid with
  | none => .error (.missingShapeElt sid)
  | some si =>
      match (nth default ctx.store si).boundElements with
      | none => .error .boundAppendNone
      | some _ => .ok { ctx with store := storeModify (appendBoundElt b) ctx.store si }

/-- Bookkeeping returned by the rectangle and image blocks. -/
structure ShapeInfo where
  eltId : Nat
  objIdx : Nat
  bounds : Bounds
deriving DecidableEq

/-- Bookkeeping returned by the text block. -/
structure TextInfo where
  textId : Nat
  objIdx : Nat
  fontSize : Nat
deriving DecidableEq

/-- Bookkeeping returned by the line block. -/
structure LineInfo where
  lineId : Nat
  objIdx : Nat
deriving DecidableEq

/-- Truncated bounds of a rectangle's parsed attributes. -/
def rectABounds (ra : RectA) : Bounds :=
  ⟨(pyTrunc ra.x : ℚ), (pyTrunc ra.y : ℚ), (pyTrunc ra.width : ℚ), (pyTrunc ra.height : ℚ)⟩

/-- Truncated bounds of an image's parsed attributes. -/
def imageABounds (ia : ImageA) : Bounds :=
  ⟨(pyTrunc ia.x : ℚ), (pyTrunc ia.y : ℚ), (pyTrunc ia.width : ℚ), (pyTrunc ia.height : ℚ)⟩

/-- The rectangle block (lines 130 to 167): truncate the attribute
bounds, create the element on the heap, register bounds and element
under the group's allocated id, and set the loop-carried bounds. -/
def rectBlock (xcId : Nat) (r : Option RectA) (ctx : Ctx) : Ctx × Option ShapeInfo :=
  match r with
  | none => (ctx, none)
  | some ra =>
      let b := rectABounds ra
      let idx := ctx.store.length
      ({ ctx with
            store := ctx.store ++ [mkRectElt xcId b],
            shapeBounds := (xcId, b) :: ctx.shapeBounds,
            shapeEltMap := (xcId, idx) :: ctx.shapeEltMap,
            lastBounds := some b },
       some ⟨xcId, idx, b⟩)

/-- The image block (lines 168 to 217): like the rectangle block, plus
the content-addressed blob id and the blob entry (inserted into the
files map later, in the end section). -/
def imageBlock (xcId : Nat) (i : Option ImageA) (ctx : Ctx) :
    Ctx × Option (ShapeInfo × String × ImageFile) :=
  match i with
  | none => (ctx, none)
  | some ia =>
      let b := imageABounds ia
      let fid := image_id ia.href
      let idx := ctx.store.length
      ({ ctx with
            store := ctx.store ++ [mkImageElt xcId b fid],
            shapeBounds := (xcId, b) :: ctx.shapeBounds,
            shapeEltMap := (xcId, idx) :: ctx.shapeEltMap,
            lastBounds := some b },
       some (⟨xcId, idx, b⟩, fid, ⟨"image/svg+xml", fid, ia.href⟩))

/-- The text block (lines 218 to 270): allocate the label id, read the
loop-carried shape bounds (a never-assigned read is the NameError), and
create the label element with the extracted or default font size. -/
def textBlock (t : Option TextA) (ctx : Ctx) : Except XErr (Ctx × Option TextInfo) :=
  match t with
  | none => .ok (ctx, none)
  | some ta =>
      let textId := ctx.nextId
      let ctx1 := { ctx with nextId := ctx.nextId + 1 }
      match ctx1.lastBounds with
      | none => .error .textNoBounds
      | some b =>
          let fs := (findFontSize ta.style).getD 12
          let idx := ctx1.store.length
          .ok ({ ctx1 with store := ctx1.store ++ [mkTextElt textId b fs (pyStrip ta.content)] },
               some ⟨textId, idx, fs⟩)

/-- Connector geometry: the straight-line fallback from registered
shape bounds when the path has no data attribute, the parsed cubic
polyline otherwise (lines 286 to 325). -/
def lineGeom (d : Option String) (startShapeId endShapeId : Nat)
    (shapeBounds : List (Nat × Bounds)) : Except XErr PathGeom :=
  match d with
  | none =>
      match assoc shapeBounds startShapeId with
      | none => .error (.missingBounds startShapeId)
      | some sb =>
          match assoc shapeBounds endShapeId with
          | none => .error (.missingBounds endShapeId)
          | some eb => .ok ⟨sb, eb, straightPointList sb eb⟩

  | some dstr => parsePathGeom dstr

/-- The line block (lines 271 to 374): allocate the connector id,
extract the endpoint names from the group identifier, resolve both
names in the name map, compute the geometry, create the arrow element,
and append the arrow back-reference to both endpoint shapes. -/
def lineBlock (itemId : String) (l : Option PathA) (ctx : Ctx) :
    Except XErr (Ctx × Option LineInfo) :=
  match l with
  | none => .ok (ctx, none)
  | some pa =>
      let lineId := ctx.nextId
      let ctx1 := { ctx with nextId := ctx.nextId + 1 }
      match parseEdgeId itemId with
      | none => .error (.lineEndpointsNotFound itemId)
      | some (u1, u2) =>
          match assoc ctx1.svgXcMap u1 with
          | none => .error (.unresolvedReference u1)
          | some startShapeId =>
              match assoc ctx1.svgXcMap u2 with
              | none => .error (.unresolvedReference u2)
              | some endShapeId =>
                  match lineGeom pa.d startShapeId endShapeId ctx1.shapeBounds with
                  | .error e => .error e
                  | .ok geom =>
                      let idx := ctx1.store.length
                      let ctx2 := { ctx1 with
                        store := ctx1.store ++ [mkLineElt lineId geom startShapeId endShapeId] }
                      match appendBoundAt ctx2 startShapeId ⟨"arrow", lineId⟩ with
                      | .error er => .error er
                      | .ok ctx3 =>
                          match appendBoundAt ctx3 endShapeId ⟨"arrow", lineId⟩ with
                          | .error er => .error er
                          | .ok ctx4 => .ok (ctx4, some ⟨lineId, idx⟩)

/-- Replace-or-append insertion preserving entry order: Python dict
assignment on the files map. -/
def dictInsert (k : String) (v : ImageFile) :
    List (String × ImageFile) → List (String × ImageFile)
  | [] => [(k, v)]
  | (k1, v1) :: rest =>
      if k1 = k then (k, v) :: rest else (k1, v1) :: dictInsert k v rest

/-- The binding step of the end section (lines 375 to 383): bind a
label to a rectangle (text back-reference on the rectangle, containerId
on the label), or, with an image instead of a rectangle, allocate one
fresh group id for both elements and shift the label beneath the
image. -/
def endBind (ri : Option ShapeInfo) (ii : Option (ShapeInfo × String × ImageFile))
    (ti : Option TextInfo) (ctx : Ctx) : Ctx :=
  match ti, ri with
  | some t, some r =>
      let c1 := { ctx with
        store := storeModify (appendBoundElt ⟨"text", t.textId⟩) ctx.store r.objIdx }
      { c1 with
        store := storeModify (fun e => { e with containerId := some r.eltId }) c1.store t.objIdx }
  | some t, none =>
      match ii with
      | some (im, _, _) =>
          let groupId := ctx.nextId
          let c1 := { ctx with nextId := ctx.nextId + 1 }
          let c2 := { c1 with
            store := storeModify (fun e => { e with groupIds := [groupId] }) c1.store im.objIdx }
          { c2 with
            store := storeModify
              (fun e => { e with groupIds := [groupId],
                                 y := e.y + im.bounds.height / 2 + (t.fontSize : ℚ) / 2 })
              c2.store t.objIdx }
      | none => ctx
  | _, _ => ctx

/-- The append step of the end section (lines 384 to 392): append the
created elements to the scene in the fixed order rectangle, image (with
its blob entry), text, line. -/
def endAppend (ri : Option ShapeInfo) (ii : Option (ShapeInfo × String × ImageFile))
    (ti : Option TextInfo) (li : Option LineInfo) (ctx : Ctx) : Ctx :=
  let ctxB :=
    match ri with
    | some r => { ctx with elements := ctx.elements ++ [r.objIdx] }
    | none => ctx
  let ctxC :=
    match ii with
    | some (im, fid, fe) =>
        { ctxB with elements := ctxB.elements ++ [im.objIdx],
                    files := dictInsert fid fe ctxB.files }
    | none => ctxB
  let ctxD :=
    match ti with
    | some t => { ctxC with elements := ctxC.elements ++ [t.objIdx] }
    | none => ctxC
  match li with
  | some ln => { ctxD with elements := ctxD.elements ++ [ln.objIdx] }
  | none => ctxD

/-- The end section of the main loop (lines 375 to 392). -/
def endSection (ri : Option ShapeInfo) (ii : Option (ShapeInfo × String × ImageFile))
    (ti : Option TextInfo) (li : Option LineInfo) (ctx : Ctx) : Ctx :=
  endAppend ri ii ti li (endBind ri ii ti ctx)

/-- Allocate the group's element id and register the group identifier
in the name map (lines 106 to 108); this happens for every visited
group, before its contents are classified. -/
def registerGroup (itemId : String) (ctx : Ctx) : Ctx :=
  { ctx with nextId := ctx.nextId + 1, svgXcMap := (itemId, ctx.nextId) :: ctx.svgXcMap }

/-- Classification and block pipeline for one group, run on the
already-registered context. -/
def processClassified (itemId : String) (xcId : Nat) (c : Classified) (ctx : Ctx) :
    Except XErr Ctx :=
  let rc := rectBlock xcId c.rect ctx
  let ic := imageBlock xcId c.image rc.1
  match textBlock c.text ic.1 with
  | .error e => .error e
  | .ok tc =>
      match lineBlock itemId c.line tc.1 with
      | .error e => .error e
      | .ok lc => .ok (endSection rc.2 ic.2 tc.2 lc.2 lc.1)

/-- Classify the group's children, then run the block pipeline. -/
def classifyAndBuild (itemId : String) (subs : List SubItem) (xcId : Nat) (ctx : Ctx) :
    Except XErr Ctx :=
  match classify subs none none none none with
  | .error e => .error e
  | .ok c => processClassified itemId xcId c ctx

/-- Process one top-level group (the body of the main loop, lines 105
to 392): register first, then classify and build. -/
def processGroup (itemId : String) (subs : List SubItem) (ctx : Ctx) : Except XErr Ctx :=
  classifyAndBuild itemId subs ctx.nextId (registerGroup itemId ctx)

/-- The walker: iterate the canvas children in document order,
processing group elements and silently ignoring everything else. -/
def runItems : List SvgItem → Ctx → Except XErr Ctx
  | [], ctx => .ok ctx
  | SvgItem.g itemId subs :: rest, ctx =>
      match processGroup itemId subs ctx with
      | .error e => .error e
      | .ok ctx1 => runItems rest ctx1
  | SvgItem.other :: rest, ctx => runItems rest ctx

/-- The fixed editor-state block of the emitted model (lines 78 to 83). -/
def appStateDefault : AppState :=
  ⟨20, 5, false, "#ffffff"⟩

/-- Assemble the scene from the final context: resolve the heap indices
of the element list into element values. -/
def mkScene (ctx : Ctx) : Scene :=
  ⟨"excalidraw", 2, "idaes", ctx.elements.map fun i => nth default ctx.store i,
   appStateDefault, ctx.files⟩

/-- Translate the children of the canvas into a scene. -/
def fromSvgItems (items : List SvgItem) : Except XErr Scene :=
  match runItems items initCtx with
  | .error e => .error e
  | .ok ctx => .ok (mkScene ctx)

/-- `Diagram.from_svg`: fail when the canvas root is absent, otherwise
translate its children. -/
def from_svg (doc : Option (List SvgItem)) : Except XErr Scene :=
  match doc with
  | none => .error .malformedDocument
  | some items => fromSvgItems items

/-! ## List and map infrastructure lemmas -/

theorem nth_append_lt {α : Type} (d : α) (l l' : List α) (k : Nat) (h : k < l.length) :
    nth d (l ++ l') k = nth d l k := by
  induction l generalizing k with
  | nil => simp at h
  | cons a rest ih =>
      cases k with
      | zero => rfl
      | succ n =>
          simp only [List.cons_append, nth]
          exact ih n (by simpa using h)

theorem nth_append_right {α : Type} (d : α) (l l' : List α) (k : Nat) :
    nth d (l ++ l') (l.length + k) = nth d l' k := by
  induction l with
  | nil => simp [nth]
  | cons a rest ih =>
      simpa [List.cons_append, Nat.succ_add, nth] using ih

theorem nth_map {α β : Type} (d : β) (d0 : α) (f : α → β) (l : List α) (k : Nat)
    (h : k < l.length) : nth d (l.map f) k = f (nth d0 l k) := by
  induction l generalizing k with
  | nil => simp at h
  | cons a rest ih =>
      cases k with
      | zero => rfl
      | succ n =>
          simp only [List.map_cons, nth]
          exact ih n (by simpa using h)

theorem storeModify_length (f : Element → Element) (s : List Element) (i : Nat) :
    (storeModify f s i).length = s.length := by
  induction s generalizing i with
  | nil => rfl
  | cons e rest ih =>
      cases i with
      | zero => rfl
      | succ n => simp [storeModify, ih]

theorem nth_storeModify_ne (f : Element → Element) (s : List Element) (i k : Nat)
    (d : Element) (h : k ≠ i) : nth d (storeModify f s i) k = nth d s k := by
  induction s generalizing i k with
  | nil => rfl
  | cons e rest ih =>
      cases i with
      | zero =>
          cases k with
          | zero => exact absurd rfl h
          | succ n => rfl
      | succ m =>
          cases k with
          | zero => rfl
          | succ n =>
              simp only [storeModify, nth]
              exact ih m n fun hc => h (congrArg Nat.succ hc)

theorem nth_storeModify_eq (f : Element → Element) (s : List Element) (i : Nat)
    (d : Element) (h : i < s.length) : nth d (storeModify f s i) i = f (nth d s i) := by
  induction s generalizing i with
  | nil => simp at h
  | cons e rest ih =>
      cases i with
      | zero => rfl
      | succ n =>
          simp only [storeModify, nth]
          exact ih n (by simpa using h)

theorem storeModify_append_left (f : Element → Element) (l l' : List Element) (k : Nat) :
    storeModify f (l ++ l') (l.length + k) = l ++ storeModify f l' k := by
  induction l with
  | nil => simp
  | cons e rest ih => simp [List.cons_append, Nat.succ_add, storeModify, ih]

/-- Number of entries of the files map carrying a given key. -/
def keyCount (k : String) : List (String × ImageFile) → Nat
  | [] => 0
  | (k1, _) :: rest => (if k1 = k then 1 else 0) + keyCount k rest

theorem keyCount_dictInsert_self (k : String) (v : ImageFile)
    (l : List (String × ImageFile)) :
    keyCount k (dictInsert k v l) = max (keyCount k l) 1 := by
  induction l with
  | nil => simp [dictInsert, keyCount]
  | cons p rest ih =>
      obtain ⟨k1, v1⟩ := p
      by_cases h : k1 = k
      · subst h
        simp only [dictInsert, if_pos rfl, keyCount, eq_self_iff_true, if_true]
        omega
      · simp only [dictInsert, if_neg h, keyCount, if_neg h, ih]
        omega

theorem keyCount_dictInsert_other (k k' : String) (v : ImageFile)
    (l : List (String × ImageFile)) (h : k' ≠ k) :
    keyCount k' (dictInsert k v l) = keyCount k' l := by
  induction l with
  | nil => simp [dictInsert, keyCount, Ne.symm h]
  | cons p rest ih =>
      obtain ⟨k1, v1⟩ := p
      by_cases hp : k1 = k
      · subst hp
        simp [dictInsert, keyCount]
      · simp [dictInsert, hp, keyCount, ih]

/-! ## Element evolution: later groups only append arrow back-references -/

/-- Relation between an element at some heap position before and after
further processing: every field is unchanged except that the
boundElements list may have gained arrow-typed entries at its end. -/
def ArrowExt (e e' : Element) : Prop :=
  e'.id = e.id ∧ e'.type = e.type ∧ e'.x = e.x ∧ e'.y = e.y ∧
  e'.width = e.width ∧ e'.height = e.height ∧ e'.groupIds = e.groupIds ∧
  e'.containerId = e.containerId ∧ e'.points = e.points ∧ e'.text = e.text ∧
  e'.fontSize = e.fontSize ∧ e'.startBinding = e.startBinding ∧
  e'.endBinding = e.endBinding ∧ e'.fileId = e.fileId ∧
  ((e.boundElements = none ∧ e'.boundElements = none) ∨
    ∃ l extra, e.boundElements = some l ∧ e'.boundElements = some (l ++ extra) ∧
      ∀ b ∈ extra, b.type = "arrow")

theorem arrowExt_refl (e : Element) : ArrowExt e e := by
  refine ⟨rfl, rfl, rfl, rfl, rfl, rfl, rfl, rfl, rfl, rfl, rfl, rfl, rfl, rfl, ?_⟩
  cases h : e.boundElements with
  | none => exact Or.inl ⟨rfl, rfl⟩
  | some l => exact Or.inr ⟨l, [], rfl, by simp, by simp⟩

theorem arrowExt_trans {e1 e2 e3 : Element} (h12 : ArrowExt e1 e2) (h23 : ArrowExt e2 e3) :
    ArrowExt e1 e3 := by
  obtain ⟨a1, a2, a3, a4, a5, a6, a7, a8, a9, a10, a11, a12, a13, a14, hb⟩ := h12
  obtain ⟨b1, b2, b3, b4, b5, b6, b7, b8, b9, b10, b11, b12, b13, b14, hb'⟩ := h23
  refine ⟨b1.trans a1, b2.trans a2, b3.trans a3, b4.trans a4, b5.trans a5, b6.trans a6,
    b7.trans a7, b8.trans a8, b9.trans a9, b10.trans a10, b11.trans a11, b12.trans a12,
    b13.trans a13, b14.trans a14, ?_⟩
  rcases hb with ⟨h1, h2⟩ | ⟨l, extra, h1, h2, h3⟩
  · rcases hb' with ⟨g1, g2⟩ | ⟨l', extra', g1, g2, g3⟩
    · exact Or.inl ⟨h1, g2⟩
    · rw [h2] at g1; exact absurd g1 (by simp)
  · rcases hb' with ⟨g1, g2⟩ | ⟨l', extra', g1, g2, g3⟩
    · rw [h2] at g1; exact absurd g1 (by simp)
    · rw [h2] at g1
      obtain rfl : l ++ extra = l' := Option.some_inj.mp g1
      refine Or.inr ⟨l, extra ++ extra', h1, ?_, ?_⟩
      · rw [g2, List.append_assoc]
      · intro b hb
        rcases List.mem_append.mp hb with h | h
        · exact h3 b h
        · exact g3 b h

/-- Number of text-typed entries of an element's back-reference list. -/
def textBoundCount (e : Element) : Nat :=
  match e.boundElements with
  | none => 0
  | some l => (l.filter fun b => b.type == "text").length

theorem ArrowExt.textBoundCount_eq {e e' : Element} (h : ArrowExt e e') :
    textBoundCount e' = textBoundCount e := by
  obtain ⟨-, -, -, -, -, -, -, -, -, -, -, -, -, -, hb⟩ := h
  rcases hb with ⟨h1, h2⟩ | ⟨l, extra, h1, h2, h3⟩
  · simp [textBoundCount, h1, h2]
  · simp only [textBoundCount, h1, h2, List.filter_append, List.length_append]
    have : (extra.filter fun b => b.type == "text") = [] := by
      apply List.filter_eq_nil_iff.mpr
      intro b hb
      simp [h3 b hb]
    simp [this]

theorem ArrowExt.mem_bound {e e' : Element} {l : List BoundElement} {b : BoundElement}
    (h : ArrowExt e e') (hl : e.boundElements = some l) (hb : b ∈ l) :
    ∃ l', e'.boundElements = some l' ∧ b ∈ l' := by
  obtain ⟨-, -, -, -, -, -, -, -, -, -, -, -, -, -, hbb⟩ := h
  rcases hbb with ⟨h1, _⟩ | ⟨l0, extra, h1, h2, _⟩
  · rw [hl] at h1; exact absurd h1 (by simp)
  · rw [hl] at h1
    obtain rfl : l = l0 := Option.some_inj.mp h1
    exact ⟨l ++ extra, h2, List.mem_append.mpr (Or.inl hb)⟩

/-! ## Context evolution across group processing -/

/-- What any amount of further processing may do to a context: the heap
only grows or has arrow back-references appended to existing elements,
the scene element list only grows at the end, registered names stay
registered, the id counter only grows, and the blob map keeps existing
keys while never growing a key beyond one entry. -/
def CtxEvolve (ctx ctx' : Ctx) : Prop :=
  ctx.store.length ≤ ctx'.store.length ∧
  ctx.nextId ≤ ctx'.nextId ∧
  (∃ newIdx, ctx'.elements = ctx.elements ++ newIdx) ∧
  (∀ k, k < ctx.store.length →
      ArrowExt (nth default ctx.store k) (nth default ctx'.store k)) ∧
  (∀ a, assoc ctx.svgXcMap a ≠ none → assoc ctx'.svgXcMap a ≠ none) ∧
  (∀ k, keyCount k ctx.files ≤ keyCount k ctx'.files) ∧
  (∀ k, keyCount k ctx'.files ≤ max (keyCount k ctx.files) 1)

theorem ctxEvolve_refl (ctx : Ctx) : CtxEvolve ctx ctx :=
  ⟨le_refl _, le_refl _, ⟨[], by simp⟩, fun k _ => arrowExt_refl _, fun _ h => h,
   fun _ => le_refl _, fun k => le_max_left _ _⟩

theorem ctxEvolve_trans {c1 c2 c3 : Ctx} (h12 : CtxEvolve c1 c2) (h23 : CtxEvolve c2 c3) :
    CtxEvolve c1 c3 := by
  obtain ⟨a1, a2, ⟨n1, a3⟩, a4, a5, a6, a7⟩ := h12
  obtain ⟨b1, b2, ⟨n2, b3⟩, b4, b5, b6, b7⟩ := h23
  refine ⟨a1.trans b1, a2.trans b2, ⟨n1 ++ n2, by rw [b3, a3, List.append_assoc]⟩,
    fun k hk => arrowExt_trans (a4 k hk) (b4 k (lt_of_lt_of_le hk a1)),
    fun a h => b5 a (a5 a h), fun k => (a6 k).trans (b6 k), fun k => ?_⟩
  have := b7 k
  have := a7 k
  omega

/-- Evolution from plain field changes: the heap grew by a suffix, the
element list grew by a suffix, the name map kept registered names, the
blob map is unchanged, the counter did not decrease. -/
theorem evolve_of_fields (ctx ctx2 : Ctx) (l : List Element)
    (hs : ctx2.store = ctx.store ++ l)
    (hel : ∃ nw, ctx2.elements = ctx.elements ++ nw)
    (hm : ∀ a, assoc ctx.svgXcMap a ≠ none → assoc ctx2.svgXcMap a ≠ none)
    (hf : ctx2.files = ctx.files) (hn : ctx.nextId ≤ ctx2.nextId) : CtxEvolve ctx ctx2 := by
  refine ⟨by simp [hs], hn, hel, fun k hk => ?_, hm, fun k => by rw [hf],
    fun k => by rw [hf]; exact le_max_left _ _⟩
  rw [hs, nth_append_lt _ _ _ _ hk]
  exact arrowExt_refl _

theorem registerGroup_evolve (itemId : String) (ctx : Ctx) :
    CtxEvolve ctx (registerGroup itemId ctx) := by
  refine evolve_of_fields _ _ [] (by simp [registerGroup]) ⟨[], by simp [registerGroup]⟩
    (fun a h => ?_) (by simp [registerGroup]) (by simp [registerGroup])
  simp only [registerGroup, assoc]
  split
  · simp
  · exact h

theorem rectBlock_spec (xcId : Nat) (r : Option RectA) (ctx : Ctx) :
    CtxEvolve ctx (rectBlock xcId r ctx).1 ∧
    (rectBlock xcId r ctx).1.nextId = ctx.nextId ∧
    ∀ info, (rectBlock xcId r ctx).2 = some info → ctx.store.length ≤ info.objIdx := by
  cases r with
  | none => exact ⟨ctxEvolve_refl ctx, rfl, fun info h => by simp [rectBlock] at h⟩
  | some ra =>
      refine ⟨evolve_of_fields _ _ [mkRectElt xcId (rectABounds ra)] (by simp [rectBlock])
        ⟨[], by simp [rectBlock]⟩ (fun a h => by simpa [rectBlock] using h)
        (by simp [rectBlock]) (by simp [rectBlock]), by simp [rectBlock], ?_⟩
      intro info h
      simp only [rectBlock] at h
      cases h
      exact le_refl _

theorem imageBlock_spec (xcId : Nat) (i : Option ImageA) (ctx : Ctx) :
    CtxEvolve ctx (imageBlock xcId i ctx).1 ∧
    (imageBlock xcId i ctx).1.nextId = ctx.nextId ∧
    ∀ im fid fe, (imageBlock xcId i ctx).2 = some (im, fid, fe) →
      ctx.store.length ≤ im.objIdx := by
  cases i with
  | none => exact ⟨ctxEvolve_refl ctx, rfl, fun im fid fe h => by simp [imageBlock] at h⟩
  | some ia =>
      refine ⟨evolve_of_fields _ _ [mkImageElt xcId (imageABounds ia) (image_id ia.href)]
        (by simp [imageBlock]) ⟨[], by simp [imageBlock]⟩
        (fun a h => by simpa [imageBlock] using h)
        (by simp [imageBlock]) (by simp [imageBlock]), by simp [imageBlock], ?_⟩
      intro im fid fe h
      simp only [imageBlock, Option.some.injEq, Prod.mk.injEq] at h
      obtain ⟨h1, h2, h3⟩ := h
      rw [← h1]

theorem textBlock_spec (t : Option TextA) (ctx ctx2 : Ctx) (ti : Option TextInfo)
    (h : textBlock t ctx = .ok (ctx2, ti)) :
    CtxEvolve ctx ctx2 ∧
    ∀ info, ti = some info → ctx.store.length ≤ info.objIdx := by
  cases t with
  | none =>
      simp only [textBlock, Except.ok.injEq, Prod.mk.injEq] at h
      obtain ⟨h1, h2⟩ := h
      subst h1; subst h2
      exact ⟨ctxEvolve_refl ctx, fun info h => by simp at h⟩
  | some ta =>
      simp only [textBlock] at h
      split at h
      · exact absurd h (by simp)
      · rename_i b hb
        simp only [Except.ok.injEq, Prod.mk.injEq] at h
        obtain ⟨h1, h2⟩ := h
        subst h1; subst h2
        refine ⟨evolve_of_fields _ _
          [mkTextElt ctx.nextId b ((findFontSize ta.style).getD 12) (pyStrip ta.content)]
          (by simp) ⟨[], by simp⟩ (fun a h => by simpa using h)
          (by simp) (by simp), ?_⟩
        intro info h
        cases h
        exact Nat.le_refl _

theorem appendBoundAt_spec (ctx : Ctx) (sid : Nat) (b : BoundElement) (ctx2 : Ctx)
    (hb : b.type = "arrow") (h : appendBoundAt ctx sid b = .ok ctx2) :
    CtxEvolve ctx ctx2 ∧ ctx2.store.length = ctx.store.length ∧
    ctx2.nextId = ctx.nextId ∧ ctx2.elements = ctx.elements ∧
    ctx2.svgXcMap = ctx.svgXcMap ∧ ctx2.files = ctx.files ∧
    ctx2.shapeBounds = ctx.shapeBounds ∧ ctx2.shapeEltMap = ctx.shapeEltMap ∧
    ctx2.lastBounds = ctx.lastBounds := by
  simp only [appendBoundAt] at h
  split at h
  · exact absurd h (by simp)
  · rename_i si hm
    split at h
    · exact absurd h (by simp)
    · rename_i lb hbe
      simp only [Except.ok.injEq] at h
      subst h
      refine ⟨⟨by simp [storeModify_length], le_refl _, ⟨[], by simp⟩, fun k hk => ?_,
        fun a ha => ha, fun k => le_refl _, fun k => le_max_left _ _⟩,
        by simp [storeModify_length], rfl, rfl, rfl, rfl, rfl, rfl, rfl⟩
      by_cases hks : k = si
      · subst hks
        rw [nth_storeModify_eq _ _ _ _ hk]
        refine ⟨rfl, rfl, rfl, rfl, rfl, rfl, rfl, rfl, rfl, rfl, rfl, rfl, rfl, rfl, ?_⟩
        exact Or.inr ⟨lb, [b], hbe, by simp [appendBoundElt, hbe], by simpa using hb⟩
      · rw [nth_storeModify_ne _ _ _ _ _ hks]
        exact arrowExt_refl _

theorem lineBlock_spec (itemId : String) (l : Option PathA) (ctx ctx2 : Ctx)
    (li : Option LineInfo) (h : lineBlock itemId l ctx = .ok (ctx2, li)) :
    CtxEvolve ctx ctx2 ∧
    ∀ info, li = some info → ctx.store.length ≤ info.objIdx := by
  cases l with
  | none =>
      simp only [lineBlock, Except.ok.injEq, Prod.mk.injEq] at h
      obtain ⟨h1, h2⟩ := h
      subst h1; subst h2
      exact ⟨ctxEvolve_refl ctx, fun info h => by simp at h⟩
  | some pa =>
      simp only [lineBlock] at h
      split at h
      · exact absurd h (by simp)
      · rename_i u1 u2 hp
        split at h
        · exact absurd h (by simp)
        · rename_i sA h1
          split at h
          · exact absurd h (by simp)
          · rename_i sB h2
            split at h
            · exact absurd h (by simp)
            · rename_i geom hg
              split at h
              · exact absurd h (by simp)
              · rename_i ctx3 ha1
                split at h
                · exact absurd h (by simp)
                · rename_i ctx4 ha2
                  simp only [Except.ok.injEq, Prod.mk.injEq] at h
                  obtain ⟨hh1, hh2⟩ := h
                  subst hh1; subst hh2
                  have e2 := appendBoundAt_spec _ sA ⟨"arrow", ctx.nextId⟩ ctx3 rfl ha1
                  have e3 := appendBoundAt_spec ctx3 sB ⟨"arrow", ctx.nextId⟩ ctx4 rfl ha2
                  have e1 : CtxEvolve ctx { ctx with nextId := ctx.nextId + 1, store := ctx.store ++ [mkLineElt ctx.nextId geom sA sB] } :=
                    evolve_of_fields _ _ [mkLineElt ctx.nextId geom sA sB]
                      rfl ⟨[], by simp⟩ (fun a ha => ha) rfl (Nat.le_succ _)
                  refine ⟨ctxEvolve_trans (ctxEvolve_trans e1 e2.1) e3.1, ?_⟩
                  intro info hinfo
                  cases hinfo
                  exact Nat.le_refl _

theorem keyCount_dictInsert_ge (k fid : String) (fe : ImageFile)
    (l : List (String × ImageFile)) : keyCount k l ≤ keyCount k (dictInsert fid fe l) := by
  by_cases h : k = fid
  · subst h
    rw [keyCount_dictInsert_self]
    exact le_max_left _ _
  · rw [keyCount_dictInsert_other _ _ _ _ h]

theorem keyCount_dictInsert_le (k fid : String) (fe : ImageFile)
    (l : List (String × ImageFile)) :
    keyCount k (dictInsert fid fe l) ≤ max (keyCount k l) 1 := by
  by_cases h : k = fid
  · subst h
    rw [keyCount_dictInsert_self]
  · rw [keyCount_dictInsert_other _ _ _ _ h]
    exact le_max_left _ _

theorem endAppend_spec (ri : Option ShapeInfo) (ii : Option (ShapeInfo × String × ImageFile))
    (ti : Option TextInfo) (li : Option LineInfo) (ctx : Ctx) :
    (endAppend ri ii ti li ctx).store = ctx.store ∧
    (endAppend ri ii ti li ctx).nextId = ctx.nextId ∧
    (∃ nw, (endAppend ri ii ti li ctx).elements = ctx.elements ++ nw) ∧
    (endAppend ri ii ti li ctx).svgXcMap = ctx.svgXcMap ∧
    (∀ k, keyCount k ctx.files ≤ keyCount k (endAppend ri ii ti li ctx).files) ∧
    (∀ k, keyCount k (endAppend ri ii ti li ctx).files ≤ max (keyCount k ctx.files) 1) := by
  rcases ri with - | r <;> rcases ii with - | ⟨im, fid, fe⟩ <;> rcases ti with - | t <;>
    rcases li with - | ln <;>
    simp only [endAppend, List.append_assoc] <;>
    refine ⟨?_, ?_, ?_, ?_, ?_, ?_⟩ <;>
    first
      | trivial
      | exact ⟨_, rfl⟩
      | exact ⟨[], by simp⟩
      | exact fun k => le_refl _
      | exact fun k => le_max_left _ _
      | exact fun k => keyCount_dictInsert_ge _ _ _ _
      | exact fun k => keyCount_dictInsert_le _ _ _ _

theorem endBind_spec (n : Nat) (ri : Option ShapeInfo)
    (ii : Option (ShapeInfo × String × ImageFile)) (ti : Option TextInfo) (ctx : Ctx)
    (hri : ∀ i, ri = some i → n ≤ i.objIdx)
    (hii : ∀ im fid fe, ii = some (im, fid, fe) → n ≤ im.objIdx)
    (hti : ∀ i, ti = some i → n ≤ i.objIdx) :
    (∀ k, k < n → nth default (endBind ri ii ti ctx).store k = nth default ctx.store k) ∧
    (endBind ri ii ti ctx).store.length = ctx.store.length ∧
    ctx.nextId ≤ (endBind ri ii ti ctx).nextId ∧
    (endBind ri ii ti ctx).elements = ctx.elements ∧
    (endBind ri ii ti ctx).svgXcMap = ctx.svgXcMap ∧
    (endBind ri ii ti ctx).files = ctx.files := by
  rcases ti with - | t
  · rcases ri with - | r <;> exact ⟨fun k hk => rfl, rfl, le_refl _, rfl, rfl, rfl⟩
  · rcases ri with - | r
    · rcases ii with - | ⟨im, fid, fe⟩
      · exact ⟨fun k hk => rfl, rfl, le_refl _, rfl, rfl, rfl⟩
      · refine ⟨fun k hk => ?_, by simp [endBind, storeModify_length], by simp [endBind],
          by simp [endBind], by simp [endBind], by simp [endBind]⟩
        have h1 : k ≠ t.objIdx := by
          have := hti t rfl
          omega
        have h2 : k ≠ im.objIdx := by
          have := hii im fid fe rfl
          omega
        simp only [endBind]
        rw [nth_storeModify_ne _ _ _ _ _ h1, nth_storeModify_ne _ _ _ _ _ h2]
    · refine ⟨fun k hk => ?_, by simp [endBind, storeModify_length], by simp [endBind],
        by simp [endBind], by simp [endBind], by simp [endBind]⟩
      have h1 : k ≠ t.objIdx := by
        have := hti t rfl
        omega
      have h2 : k ≠ r.objIdx := by
        have := hri r rfl
        omega
      simp only [endBind]
      rw [nth_storeModify_ne _ _ _ _ _ h1, nth_storeModify_ne _ _ _ _ _ h2]

/-- A later group's end section does not disturb any heap entry below
the length the heap had when the group started. -/
theorem endSection_spec (n : Nat) (ri : Option ShapeInfo)
    (ii : Option (ShapeInfo × String × ImageFile)) (ti : Option TextInfo)
    (li : Option LineInfo) (ctx : Ctx)
    (hri : ∀ i, ri = some i → n ≤ i.objIdx)
    (hii : ∀ im fid fe, ii = some (im, fid, fe) → n ≤ im.objIdx)
    (hti : ∀ i, ti = some i → n ≤ i.objIdx) :
    (∀ k, k < n → nth default (endSection ri ii ti li ctx).store k = nth default ctx.store k) ∧
    (endSection ri ii ti li ctx).store.length = ctx.store.length ∧
    ctx.nextId ≤ (endSection ri ii ti li ctx).nextId ∧
    (∃ nw, (endSection ri ii ti li ctx).elements = ctx.elements ++ nw) ∧
    (endSection ri ii ti li ctx).svgXcMap = ctx.svgXcMap ∧
    (∀ k, keyCount k ctx.files ≤ keyCount k (endSection ri ii ti li ctx).files) ∧
    (∀ k, keyCount k (endSection ri ii ti li ctx).files ≤ max (keyCount k ctx.files) 1) := by
  obtain ⟨b1, b2, b3, b4, b5, b6⟩ := endBind_spec n ri ii ti ctx hri hii hti
  obtain ⟨a1, a2, a3, a4, a5, a6⟩ := endAppend_spec ri ii ti li (endBind ri ii ti ctx)
  refine ⟨fun k hk => ?_, ?_, ?_, ?_, ?_, fun k => ?_, fun k => ?_⟩
  · rw [show (endSection ri ii ti li ctx).store = (endBind ri ii ti ctx).store from a1]
    exact b1 k hk
  · rw [show (endSection ri ii ti li ctx).store = (endBind ri ii ti ctx).store from a1, b2]
  · exact b3.trans (le_of_eq a2.symm)
  · obtain ⟨nw, hnw⟩ := a3
    exact ⟨nw, by rw [show (endSection ri ii ti li ctx).elements = (endBind ri ii ti ctx).elements ++ nw from hnw, b4]⟩
  · rw [show (endSection ri ii ti li ctx).svgXcMap = (endBind ri ii ti ctx).svgXcMap from a4, b5]
  · have := a5 k
    rw [b6] at this
    exact this
  · have := a6 k
    rw [b6] at this
    exact this

/-- Processing one group only evolves the context. -/
theorem processClassified_evolve (itemId : String) (xcId : Nat) (c : Classified)
    (ctx ctx' : Ctx) (h : processClassified itemId xcId c ctx = .ok ctx') :
    CtxEvolve ctx ctx' := by
  obtain ⟨er, hrn, hri⟩ := rectBlock_spec xcId c.rect ctx
  obtain ⟨ei, hin, hii⟩ := imageBlock_spec xcId c.image (rectBlock xcId c.rect ctx).1
  simp only [processClassified] at h
  split at h
  · exact absurd h (by simp)
  · rename_i tc htc
    split at h
    · exact absurd h (by simp)
    · rename_i lc hlc
      simp only [Except.ok.injEq] at h
      subst h
      obtain ⟨et, hti⟩ := textBlock_spec c.text _ tc.1 tc.2 (by rw [htc])
      obtain ⟨el, hli⟩ := lineBlock_spec itemId c.line tc.1 lc.1 lc.2 (by rw [hlc])
      have eAll : CtxEvolve ctx lc.1 := ctxEvolve_trans (ctxEvolve_trans (ctxEvolve_trans er ei) et) el
      have hn : ctx.store.length ≤ ctx.store.length := le_refl _
      obtain ⟨s1, s2, s3, s4, s5, s6, s7⟩ :=
        endSection_spec ctx.store.length (rectBlock xcId c.rect ctx).2
          (imageBlock xcId c.image (rectBlock xcId c.rect ctx).1).2 tc.2 lc.2 lc.1
          hri
          (fun im fid fe hm => le_trans er.1 (hii im fid fe hm))
          (fun i hm => le_trans (er.1.trans ei.1) (hti i hm))
      obtain ⟨E1, E2, ⟨nw1, E3⟩, E4, E5, E6, E7⟩ := eAll
      refine ⟨?_, ?_, ?_, fun k hk => ?_, fun a ha => ?_, fun k => ?_, fun k => ?_⟩
      · rw [s2]; exact E1
      · exact E2.trans s3
      · obtain ⟨nw2, h2⟩ := s4
        exact ⟨nw1 ++ nw2, by rw [h2, E3, List.append_assoc]⟩
      · rw [s1 k hk]
        exact E4 k hk
      · rw [s5]
        exact E5 a ha
      · exact (E6 k).trans (s6 k)
      · have h7 := s7 k
        have h6 := E7 k
        omega

/-- Processing one group (with its registration) only evolves the
context. -/
theorem processGroup_evolve (itemId : String) (subs : List SubItem) (ctx ctx' : Ctx)
    (h : processGroup itemId subs ctx = .ok ctx') : CtxEvolve ctx ctx' := by
  unfold processGroup classifyAndBuild at h
  split at h
  · exact absurd h (by simp)
  · exact ctxEvolve_trans (registerGroup_evolve itemId ctx)
      (processClassified_evolve _ _ _ _ _ h)

/-- The walker only evolves the context. -/
theorem runItems_evolve (items : List SvgItem) : ∀ ctx ctx' : Ctx,
    runItems items ctx = .ok ctx' → CtxEvolve ctx ctx' := by
  induction items with
  | nil =>
      intro ctx ctx' h
      simp only [runItems, Except.ok.injEq] at h
      subst h
      exact ctxEvolve_refl ctx
  | cons it rest ih =>
      intro ctx ctx' h
      cases it with
      | g itemId subs =>
          simp only [runItems] at h
          split at h
          · exact absurd h (by simp)
          · rename_i c1 hc1
            exact ctxEvolve_trans (processGroup_evolve itemId subs ctx c1 hc1) (ih c1 ctx' h)
      | other =>
          simp only [runItems] at h
          exact ih ctx ctx' h

/-- Splitting a run at a list decomposition. -/
theorem runItems_append (l1 l2 : List SvgItem) (ctx : Ctx) :
    runItems (l1 ++ l2) ctx =
      match runItems l1 ctx with
      | .error e => .error e
      | .ok c => runItems l2 c := by
  induction l1 generalizing ctx with
  | nil => simp [runItems]
  | cons it rest ih =>
      cases it with
      | g itemId subs =>
          simp only [List.cons_append, runItems]
          split
          · rfl
          · exact ih _
      | other =>
          simp only [List.cons_append, runItems]
          exact ih _

/-! ## Field preservation and error classification -/

theorem rectBlock_fields (xcId : Nat) (r : Option RectA) (ctx : Ctx) :
    (rectBlock xcId r ctx).1.svgXcMap = ctx.svgXcMap ∧
    (rectBlock xcId r ctx).1.files = ctx.files ∧
    (rectBlock xcId r ctx).1.elements = ctx.elements := by
  cases r <;> exact ⟨rfl, rfl, rfl⟩

theorem imageBlock_fields (xcId : Nat) (i : Option ImageA) (ctx : Ctx) :
    (imageBlock xcId i ctx).1.svgXcMap = ctx.svgXcMap ∧
    (imageBlock xcId i ctx).1.files = ctx.files ∧
    (imageBlock xcId i ctx).1.elements = ctx.elements := by
  cases i <;> exact ⟨rfl, rfl, rfl⟩

theorem textBlock_fields (t : Option TextA) (ctx ctx2 : Ctx) (ti : Option TextInfo)
    (h : textBlock t ctx = .ok (ctx2, ti)) :
    ctx2.svgXcMap = ctx.svgXcMap ∧ ctx2.files = ctx.files ∧
    ctx2.shapeBounds = ctx.shapeBounds ∧ ctx2.shapeEltMap = ctx.shapeEltMap ∧
    ctx2.elements = ctx.elements ∧ ctx2.lastBounds = ctx.lastBounds := by
  cases t with
  | none =>
      simp only [textBlock, Except.ok.injEq, Prod.mk.injEq] at h
      obtain ⟨h1, h2⟩ := h
      subst h1
      exact ⟨rfl, rfl, rfl, rfl, rfl, rfl⟩
  | some ta =>
      simp only [textBlock] at h
      split at h
      · exact absurd h (by simp)
      · simp only [Except.ok.injEq, Prod.mk.injEq] at h
        obtain ⟨h1, h2⟩ := h
        subst h1
        exact ⟨rfl, rfl, rfl, rfl, rfl, rfl⟩

theorem textBlock_error (t : Option TextA) (ctx : Ctx) (e : XErr)
    (h : textBlock t ctx = .error e) : e = .textNoBounds := by
  cases t with
  | none => simp [textBlock] at h
  | some ta =>
      simp only [textBlock] at h
      split at h
      · simp only [Except.error.injEq] at h
        exact h.symm
      · exact absurd h (by simp)

theorem lineBlock_fields (itemId : String) (l : Option PathA) (ctx ctx2 : Ctx)
    (li : Option LineInfo) (h : lineBlock itemId l ctx = .ok (ctx2, li)) :
    ctx2.svgXcMap = ctx.svgXcMap ∧ ctx2.files = ctx.files ∧
    ctx2.shapeBounds = ctx.shapeBounds ∧ ctx2.shapeEltMap = ctx.shapeEltMap ∧
    ctx2.elements = ctx.elements ∧ ctx2.lastBounds = ctx.lastBounds := by
  cases l with
  | none =>
      simp only [lineBlock, Except.ok.injEq, Prod.mk.injEq] at h
      obtain ⟨h1, h2⟩ := h
      subst h1
      exact ⟨rfl, rfl, rfl, rfl, rfl, rfl⟩
  | some pa =>
      simp only [lineBlock] at h
      split at h
      · exact absurd h (by simp)
      · split at h
        · exact absurd h (by simp)
        · split at h
          · exact absurd h (by simp)
          · split at h
            · exact absurd h (by simp)
            · rename_i geom hg
              split at h
              · exact absurd h (by simp)
              · rename_i ctx3 ha1
                split at h
                · exact absurd h (by simp)
                · rename_i ctx4 ha2
                  simp only [Except.ok.injEq, Prod.mk.injEq] at h
                  obtain ⟨h1, h2⟩ := h
                  subst h1
                  obtain ⟨-, -, -, m0, m1, m2, m3, m4, m5⟩ :=
                    appendBoundAt_spec _ _ _ ctx3 rfl ha1
                  obtain ⟨-, -, -, n0, n1, n2, n3, n4, n5⟩ :=
                    appendBoundAt_spec ctx3 _ _ ctx4 rfl ha2
                  refine ⟨?_, ?_, ?_, ?_, ?_, ?_⟩ <;>
                    simp only [n0, n1, n2, n3, n4, n5, m0, m1, m2, m3, m4, m5]

theorem appendBoundAt_error (ctx : Ctx) (sid : Nat) (b : BoundElement) (e : XErr)
    (h : appendBoundAt ctx sid b = .error e) :
    e = .missingShapeElt sid ∨ e = .boundAppendNone := by
  simp only [appendBoundAt] at h
  split at h
  · simp only [Except.error.injEq] at h
    exact Or.inl h.symm
  · split at h
    · simp only [Except.error.injEq] at h
      exact Or.inr h.symm
    · exact absurd h (by simp)

theorem parseTok_error (s : String) (e : XErr) (h : parseTok s = .error e) :
    e = .floatParse s := by
  simp only [parseTok] at h
  split at h
  · exact absurd h (by simp)
  · simp only [Except.error.injEq] at h
    exact h.symm

/-- The token-format predicate of the three explicit path checks. -/
def TokenBad (toks : List String) : Prop :=
  toks.length < 10 ∨ nth "" toks 0 ≠ "M" ∨ nth "" toks 3 ≠ "C"


instance : DecidablePred TokenBad := fun toks =>
  decidable_of_iff (toks.length < 10 ∨ nth "" toks 0 ≠ "M" ∨ nth "" toks 3 ≠ "C") Iff.rfl

theorem parsePathGeom_bad (dstr : String) (h : TokenBad (tokenizePath dstr)) :
    parsePathGeom dstr = .error (.pathFormat (tokenizePath dstr)) := by
  simp only [parsePathGeom]
  by_cases h1 : (tokenizePath dstr).length < 10
  · rw [if_pos h1]
  · rw [if_neg h1]
    by_cases h2 : nth "" (tokenizePath dstr) 0 ≠ "M"
    · rw [if_pos h2]
    · rw [if_neg h2]
      have h3 : nth "" (tokenizePath dstr) 3 ≠ "C" := by
        rcases h with h | h | h
        · exact absurd h h1
        · exact absurd h h2
        · exact h
      rw [if_pos h3]

theorem parsePathGeom_error_cases (dstr : String) (e : XErr)
    (h : parsePathGeom dstr = .error e) :
    (e = .pathFormat (tokenizePath dstr) ∧ TokenBad (tokenizePath dstr)) ∨
    ∃ t, e = .floatParse t := by
  simp only [parsePathGeom] at h
  split at h
  · rename_i hlt
    simp only [Except.error.injEq] at h
    exact Or.inl ⟨h.symm, Or.inl hlt⟩
  · rename_i hlt
    split at h
    · rename_i hm
      simp only [Except.error.injEq] at h
      exact Or.inl ⟨h.symm, Or.inr (Or.inl hm)⟩
    · rename_i hm
      split at h
      · rename_i hc
        simp only [Except.error.injEq] at h
        exact Or.inl ⟨h.symm, Or.inr (Or.inr hc)⟩
      · rename_i hc
        split at h
        · rename_i e1 he1
          simp only [Except.error.injEq] at h
          subst h
          exact Or.inr ⟨_, parseTok_error _ _ he1⟩
        · split at h
          · rename_i e1 he1
            simp only [Except.error.injEq] at h
            subst h
            exact Or.inr ⟨_, parseTok_error _ _ he1⟩
          · split at h
            · rename_i e1 he1
              simp only [Except.error.injEq] at h
              subst h
              exact Or.inr ⟨_, parseTok_error _ _ he1⟩
            · split at h
              · rename_i e1 he1
                simp only [Except.error.injEq] at h
                subst h
                exact Or.inr ⟨_, parseTok_error _ _ he1⟩
              · split at h
                · rename_i e1 he1
                  simp only [Except.error.injEq] at h
                  subst h
                  exact Or.inr ⟨_, parseTok_error _ _ he1⟩
                · split at h
                  · rename_i e1 he1
                    simp only [Except.error.injEq] at h
                    subst h
                    exact Or.inr ⟨_, parseTok_error _ _ he1⟩
                  · split at h
                    · rename_i e1 he1
                      simp only [Except.error.injEq] at h
                      subst h
                      exact Or.inr ⟨_, parseTok_error _ _ he1⟩
                    · split at h
                      · rename_i e1 he1
                        simp only [Except.error.injEq] at h
                        subst h
                        exact Or.inr ⟨_, parseTok_error _ _ he1⟩
                      · exact absurd h (by simp)

theorem parsePathGeom_ok (dstr : String) (v1 v2 v8 v9 v4 v5 vm2 vm1 : ℚ)
    (hgood : ¬ TokenBad (tokenizePath dstr))
    (p1 : parseTok (nth "" (tokenizePath dstr) 1) = .ok v1)
    (p2 : parseTok (nth "" (tokenizePath dstr) 2) = .ok v2)
    (p8 : parseTok (nth "" (tokenizePath dstr) 8) = .ok v8)
    (p9 : parseTok (nth "" (tokenizePath dstr) 9) = .ok v9)
    (p4 : parseTok (nth "" (tokenizePath dstr) 4) = .ok v4)
    (p5 : parseTok (nth "" (tokenizePath dstr) 5) = .ok v5)
    (pm2 : parseTok (nth "" (tokenizePath dstr) ((tokenizePath dstr).length - 2)) = .ok vm2)
    (pm1 : parseTok (nth "" (tokenizePath dstr) ((tokenizePath dstr).length - 1)) = .ok vm1) :
    parsePathGeom dstr = .ok ⟨⟨v1, v2, 0, 0⟩, ⟨v8, v9, 0, 0⟩,
      [(0, 0), (v4 - v1, v5 - v2), (vm2 - v1, vm1 - v2)]⟩ := by
  have hg1 : ¬ (tokenizePath dstr).length < 10 := fun hc => hgood (Or.inl hc)
  have hg2 : ¬ nth "" (tokenizePath dstr) 0 ≠ "M" := fun hc => hgood (Or.inr (Or.inl hc))
  have hg3 : ¬ nth "" (tokenizePath dstr) 3 ≠ "C" := fun hc => hgood (Or.inr (Or.inr hc))
  simp only [parsePathGeom, if_neg hg1, if_neg hg2, if_neg hg3, p1, p2, p8, p9, p4, p5,
    pm2, pm1]

/-! ## Explicit results of processing one group of each relevant shape -/

theorem storeModify_at_len (f : Element → Element) (l l2 : List Element) :
    storeModify f (l ++ l2) l.length = l ++ storeModify f l2 0 := by
  simpa using storeModify_append_left f l l2 0

theorem storeModify_at_len1 (f : Element → Element) (l l2 : List Element) :
    storeModify f (l ++ l2) (l.length + 1) = l ++ storeModify f l2 1 :=
  storeModify_append_left f l l2 1

/-- A rectangle as it stands after its label was bound to it. -/
def rectLabeled (xcId : Nat) (b : Bounds) (textId : Nat) : Element :=
  appendBoundElt ⟨"text", textId⟩ (mkRectElt xcId b)

/-- A label as it stands after being bound into its rectangle. -/
def labelInRect (textId : Nat) (b : Bounds) (fs : Nat) (v : String) (rectId : Nat) : Element :=
  { mkTextElt textId b fs v with containerId := some rectId }

/-- An image as it stands after being grouped with its label. -/
def imageGrouped (xcId : Nat) (b : Bounds) (fid : String) (gid : Nat) : Element :=
  { mkImageElt xcId b fid with groupIds := [gid] }

/-- A label as it stands after being grouped with its image and shifted
beneath it. -/
def labelUnderImage (textId : Nat) (b : Bounds) (fs : Nat) (v : String) (gid : Nat) : Element :=
  { mkTextElt textId b fs v with
      groupIds := [gid]
      y := (mkTextElt textId b fs v).y + b.height / 2 + (fs : ℚ) / 2 }

/-- Unfolding of the walker step once the classification is known. -/
theorem processGroup_eq_of_classify (itemId : String) (subs : List SubItem) (ctx : Ctx)
    (c : Classified) (hc : classify subs none none none none = .ok c) :
    processGroup itemId subs ctx =
      processClassified itemId ctx.nextId c (registerGroup itemId ctx) := by
  unfold processGroup classifyAndBuild
  rw [hc]

/-- Result of a unit group holding a rectangle and a label. -/
theorem build_rect_text (itemId : String) (xcId : Nat) (ra : RectA) (ta : TextA) (ctx : Ctx) :
    processClassified itemId xcId ⟨some ra, none, some ta, none⟩ ctx =
      .ok { ctx with
        nextId := ctx.nextId + 1,
        shapeBounds := (xcId, rectABounds ra) :: ctx.shapeBounds,
        shapeEltMap := (xcId, ctx.store.length) :: ctx.shapeEltMap,
        store := ctx.store ++
          [rectLabeled xcId (rectABounds ra) ctx.nextId,
           labelInRect ctx.nextId (rectABounds ra) ((findFontSize ta.style).getD 12)
             (pyStrip ta.content) xcId],
        elements := ctx.elements ++ [ctx.store.length, ctx.store.length + 1],
        lastBounds := some (rectABounds ra) } := by
  simp only [processClassified, rectBlock, imageBlock, textBlock, lineBlock, endSection,
    endBind, endAppend, rectLabeled, labelInRect, mkRectElt, mkTextElt, appendBoundElt,
    List.append_assoc, List.singleton_append,
    List.length_append, List.length_cons, List.length_nil, storeModify_at_len,
    storeModify_at_len1, storeModify]

/-- Result of a unit group holding an image and a label. -/
theorem build_image_text (itemId : String) (xcId : Nat) (ia : ImageA) (ta : TextA) (ctx : Ctx) :
    processClassified itemId xcId ⟨none, none, some ta, some ia⟩ ctx =
      .ok { ctx with
        nextId := ctx.nextId + 2,
        shapeBounds := (xcId, imageABounds ia) :: ctx.shapeBounds,
        shapeEltMap := (xcId, ctx.store.length) :: ctx.shapeEltMap,
        store := ctx.store ++
          [imageGrouped xcId (imageABounds ia) (image_id ia.href) (ctx.nextId + 1),
           labelUnderImage ctx.nextId (imageABounds ia) ((findFontSize ta.style).getD 12)
             (pyStrip ta.content) (ctx.nextId + 1)],
        elements := ctx.elements ++ [ctx.store.length, ctx.store.length + 1],
        files := dictInsert (image_id ia.href)
          ⟨"image/svg+xml", image_id ia.href, ia.href⟩ ctx.files,
        lastBounds := some (imageABounds ia) } := by
  simp only [processClassified, rectBlock, imageBlock, textBlock, lineBlock, endSection,
    endBind, endAppend, imageGrouped, labelUnderImage, mkImageElt, mkTextElt,
    List.append_assoc, List.singleton_append, List.length_append, List.length_cons,
    List.length_nil, storeModify_at_len, storeModify_at_len1, storeModify]

/-- Result of an edge group whose endpoints resolve and whose geometry
parses: the arrow element is created and both endpoint shapes gain an
arrow back-reference. -/
theorem build_edge (itemId : String) (xcId : Nat) (pa : PathA) (ctx : Ctx)
    (u1 u2 : String) (sA sB siA siB : Nat) (geom : PathGeom)
    (lbA lbB : List BoundElement)
    (hp : parseEdgeId itemId = some (u1, u2))
    (h1 : assoc ctx.svgXcMap u1 = some sA)
    (h2 : assoc ctx.svgXcMap u2 = some sB)
    (hg : lineGeom pa.d sA sB ctx.shapeBounds = .ok geom)
    (hsA : assoc ctx.shapeEltMap sA = some siA) (hltA : siA < ctx.store.length)
    (hsB : assoc ctx.shapeEltMap sB = some siB) (hltB : siB < ctx.store.length)
    (hbA : (nth default ctx.store siA).boundElements = some lbA)
    (hbB : (nth default ctx.store siB).boundElements = some lbB) :
    processClassified itemId xcId ⟨none, some pa, none, none⟩ ctx =
      .ok { ctx with
        nextId := ctx.nextId + 1,
        store := storeModify (appendBoundElt ⟨"arrow", ctx.nextId⟩)
          (storeModify (appendBoundElt ⟨"arrow", ctx.nextId⟩)
            (ctx.store ++ [mkLineElt ctx.nextId geom sA sB]) siA) siB,
        elements := ctx.elements ++ [ctx.store.length] } := by
  have hbA' : (nth default (ctx.store ++ [mkLineElt ctx.nextId geom sA sB]) siA).boundElements
      = some lbA := by rw [nth_append_lt _ _ _ _ hltA, hbA]
  have hbB' : (nth default (storeModify (appendBoundElt ⟨"arrow", ctx.nextId⟩)
        (ctx.store ++ [mkLineElt ctx.nextId geom sA sB]) siA) siB).boundElements
      = some (if siB = siA then lbA ++ [⟨"arrow", ctx.nextId⟩] else lbB) := by
    by_cases hEq : siB = siA
    · subst hEq
      rw [nth_storeModify_eq _ _ _ _ (by simpa using Nat.lt_of_lt_of_le hltB (by simp))]
      rw [if_pos rfl]
      simp [appendBoundElt, hbA']
    · rw [nth_storeModify_ne _ _ _ _ _ hEq, if_neg hEq,
        nth_append_lt _ _ _ _ hltB, hbB]
  simp only [processClassified, rectBlock, imageBlock, textBlock, lineBlock,
    appendBoundAt, endSection, endBind, endAppend, hp, h1, h2, hg, hsA, hsB, hbA', hbB',
    List.append_assoc, List.singleton_append]

/-- An edge group whose source name is unregistered fails with the
unresolved-reference error for that name. -/
theorem build_edge_unresolved1 (itemId : String) (xcId : Nat) (pa : PathA) (ctx : Ctx)
    (u1 u2 : String)
    (hp : parseEdgeId itemId = some (u1, u2))
    (h1 : assoc ctx.svgXcMap u1 = none) :
    processClassified itemId xcId ⟨none, some pa, none, none⟩ ctx =
      .error (.unresolvedReference u1) := by
  simp only [processClassified, rectBlock, imageBlock, textBlock, lineBlock, hp, h1]

/-- An edge group whose target name is unregistered (the source
resolving) fails with the unresolved-reference error for the target. -/
theorem build_edge_unresolved2 (itemId : String) (xcId : Nat) (pa : PathA) (ctx : Ctx)
    (u1 u2 : String) (sA : Nat)
    (hp : parseEdgeId itemId = some (u1, u2))
    (h1 : assoc ctx.svgXcMap u1 = some sA)
    (h2 : assoc ctx.svgXcMap u2 = none) :
    processClassified itemId xcId ⟨none, some pa, none, none⟩ ctx =
      .error (.unresolvedReference u2) := by
  simp only [processClassified, rectBlock, imageBlock, textBlock, lineBlock, hp, h1, h2]

/-- An edge group whose geometry computation fails propagates exactly
that error. -/
theorem build_edge_geom_error (itemId : String) (xcId : Nat) (pa : PathA) (ctx : Ctx)
    (u1 u2 : String) (sA sB : Nat) (e : XErr)
    (hp : parseEdgeId itemId = some (u1, u2))
    (h1 : assoc ctx.svgXcMap u1 = some sA)
    (h2 : assoc ctx.svgXcMap u2 = some sB)
    (hg : lineGeom pa.d sA sB ctx.shapeBounds = .error e) :
    processClassified itemId xcId ⟨none, some pa, none, none⟩ ctx = .error e := by
  simp only [processClassified, rectBlock, imageBlock, textBlock, lineBlock, hp, h1, h2, hg]

/-- Propagation of a failure of the first back-reference append. -/
theorem build_edge_append1 (itemId : String) (xcId : Nat) (dOpt : Option String) (ctx : Ctx)
    (u1 u2 : String) (sA sB : Nat) (geom : PathGeom) (e : XErr)
    (hp : parseEdgeId itemId = some (u1, u2))
    (h1 : assoc ctx.svgXcMap u1 = some sA)
    (h2 : assoc ctx.svgXcMap u2 = some sB)
    (hg : lineGeom dOpt sA sB ctx.shapeBounds = .ok geom)
    (ha1 : appendBoundAt { ctx with nextId := ctx.nextId + 1, store := ctx.store ++ [mkLineElt ctx.nextId geom sA sB] } sA ⟨"arrow", ctx.nextId⟩ = .error e) :
    processClassified itemId xcId ⟨none, some ⟨dOpt⟩, none, none⟩ ctx = .error e := by
  simp only [processClassified, rectBlock, imageBlock, textBlock, lineBlock,
    hp, h1, h2, hg, ha1]

/-- Propagation of a failure of the second back-reference append. -/
theorem build_edge_append2 (itemId : String) (xcId : Nat) (dOpt : Option String) (ctx : Ctx)
    (u1 u2 : String) (sA sB : Nat) (geom : PathGeom) (ctx3 : Ctx) (e : XErr)
    (hp : parseEdgeId itemId = some (u1, u2))
    (h1 : assoc ctx.svgXcMap u1 = some sA)
    (h2 : assoc ctx.svgXcMap u2 = some sB)
    (hg : lineGeom dOpt sA sB ctx.shapeBounds = .ok geom)
    (ha1 : appendBoundAt { ctx with nextId := ctx.nextId + 1, store := ctx.store ++ [mkLineElt ctx.nextId geom sA sB] } sA ⟨"arrow", ctx.nextId⟩ = .ok ctx3)
    (ha2 : appendBoundAt ctx3 sB ⟨"arrow", ctx.nextId⟩ = .error e) :
    processClassified itemId xcId ⟨none, some ⟨dOpt⟩, none, none⟩ ctx = .error e := by
  simp only [processClassified, rectBlock, imageBlock, textBlock, lineBlock,
    hp, h1, h2, hg, ha1, ha2]

/-- Success form of the edge pipeline once both appends succeed. -/
theorem build_edge_ok_of (itemId : String) (xcId : Nat) (dOpt : Option String) (ctx : Ctx)
    (u1 u2 : String) (sA sB : Nat) (geom : PathGeom) (ctx3 ctx4 : Ctx)
    (hp : parseEdgeId itemId = some (u1, u2))
    (h1 : assoc ctx.svgXcMap u1 = some sA)
    (h2 : assoc ctx.svgXcMap u2 = some sB)
    (hg : lineGeom dOpt sA sB ctx.shapeBounds = .ok geom)
    (ha1 : appendBoundAt { ctx with nextId := ctx.nextId + 1, store := ctx.store ++ [mkLineElt ctx.nextId geom sA sB] } sA ⟨"arrow", ctx.nextId⟩ = .ok ctx3)
    (ha2 : appendBoundAt ctx3 sB ⟨"arrow", ctx.nextId⟩ = .ok ctx4) :
    processClassified itemId xcId ⟨none, some ⟨dOpt⟩, none, none⟩ ctx =
      .ok (endSection none none none (some ⟨ctx.nextId, ctx.store.length⟩) ctx4) := by
  simp only [processClassified, rectBlock, imageBlock, textBlock, lineBlock,
    hp, h1, h2, hg, ha1, ha2]

/-- For a resolving edge group with explicit curve data, a path-format
failure happens exactly when the token checks fail. -/
theorem edge_pathFormat_iff (itemId : String) (xcId : Nat) (dstr : String) (ctx : Ctx)
    (u1 u2 : String) (sA sB : Nat)
    (hp : parseEdgeId itemId = some (u1, u2))
    (h1 : assoc ctx.svgXcMap u1 = some sA)
    (h2 : assoc ctx.svgXcMap u2 = some sB) :
    (∃ l, processClassified itemId xcId ⟨none, some ⟨some dstr⟩, none, none⟩ ctx =
        .error (.pathFormat l)) ↔ TokenBad (tokenizePath dstr) := by
  constructor
  · rintro ⟨l, h⟩
    by_contra hgood
    cases hpp : parsePathGeom dstr with
    | error e =>
        rcases parsePathGeom_error_cases dstr e hpp with ⟨-, hbad⟩ | ⟨t, ht⟩
        · exact hgood hbad
        · rw [build_edge_geom_error itemId xcId ⟨some dstr⟩ ctx u1 u2 sA sB e hp h1 h2
            (by simpa [lineGeom] using hpp)] at h
          subst ht
          exact absurd (Except.error.inj h) (by simp)
    | ok geom =>
        have hg : lineGeom (some dstr) sA sB ctx.shapeBounds = .ok geom := by
          simpa [lineGeom] using hpp
        cases ha1 : appendBoundAt { ctx with nextId := ctx.nextId + 1, store := ctx.store ++ [mkLineElt ctx.nextId geom sA sB] } sA ⟨"arrow", ctx.nextId⟩ with
        | error e =>
            rw [build_edge_append1 itemId xcId (some dstr) ctx u1 u2 sA sB geom e
              hp h1 h2 hg ha1] at h
            rcases appendBoundAt_error _ _ _ _ ha1 with h' | h' <;>
              · subst h'
                exact absurd (Except.error.inj h) (by simp)
        | ok ctx3 =>
            cases ha2 : appendBoundAt ctx3 sB ⟨"arrow", ctx.nextId⟩ with
            | error e =>
                rw [build_edge_append2 itemId xcId (some dstr) ctx u1 u2 sA sB geom ctx3 e
                  hp h1 h2 hg ha1 ha2] at h
                rcases appendBoundAt_error _ _ _ _ ha2 with h' | h' <;>
                  · subst h'
                    exact absurd (Except.error.inj h) (by simp)
            | ok ctx4 =>
                rw [build_edge_ok_of itemId xcId (some dstr) ctx u1 u2 sA sB geom ctx3 ctx4
                  hp h1 h2 hg ha1 ha2] at h
                exact absurd h (by simp)
  · intro hbad
    exact ⟨tokenizePath dstr, build_edge_geom_error itemId xcId ⟨some dstr⟩ ctx u1 u2 sA sB _
      hp h1 h2 (by simpa [lineGeom] using parsePathGeom_bad dstr hbad)⟩

/-! ## Registration and resolution facts (for the walker invariants) -/

theorem classify_error (subs : List SubItem) : ∀ (r : Option RectA) (l : Option PathA)
    (t : Option TextA) (i : Option ImageA) (e : XErr),
    classify subs r l t i = .error e → e = .missingShape := by
  induction subs with
  | nil => intro r l t i e h; simp [classify] at h
  | cons s rest ih =>
      intro r l t i e h
      cases s with
      | shapeGroup cs =>
          simp only [classify] at h
          split at h
          · exact ih _ _ _ _ _ h
          · exact ih _ _ _ _ _ h
          · split at h
            · simp only [Except.error.injEq] at h
              exact h.symm
            · exact ih _ _ _ _ _ h
      | otherGroup => exact ih _ _ _ _ _ h
      | text x y style content => exact ih _ _ _ _ _ h
      | path d => exact ih _ _ _ _ _ h
      | other => exact ih _ _ _ _ _ h

theorem lineGeom_not_unresolved (d : Option String) (sA sB : Nat)
    (sb : List (Nat × Bounds)) (e : XErr) (h : lineGeom d sA sB sb = .error e) :
    ∀ a, e ≠ .unresolvedReference a := by
  intro a hc
  subst hc
  cases d with
  | none =>
      simp only [lineGeom] at h
      split at h
      · simp at h
      · split at h
        · simp at h
        · simp at h
  | some dstr =>
      simp only [lineGeom] at h
      rcases parsePathGeom_error_cases dstr _ h with ⟨h1, -⟩ | ⟨t, h1⟩ <;> simp at h1

theorem lineBlock_unresolved (itemId : String) (l : Option PathA) (ctx : Ctx) (a : String)
    (h : lineBlock itemId l ctx = .error (.unresolvedReference a)) :
    assoc ctx.svgXcMap a = none := by
  cases l with
  | none => simp [lineBlock] at h
  | some pa =>
      simp only [lineBlock] at h
      split at h
      · simp at h
      · rename_i u1 u2 hp
        split at h
        · rename_i h1
          simp only [Except.error.injEq, XErr.unresolvedReference.injEq] at h
          subst h
          exact h1
        · rename_i sA h1
          split at h
          · rename_i h2
            simp only [Except.error.injEq, XErr.unresolvedReference.injEq] at h
            subst h
            exact h2
          · rename_i sB h2
            split at h
            · rename_i e hg
              simp only [Except.error.injEq] at h
              subst h
              exact absurd rfl (lineGeom_not_unresolved _ _ _ _ _ hg a)
            · rename_i geom hg
              split at h
              · rename_i e ha1
                simp only [Except.error.injEq] at h
                subst h
                rcases appendBoundAt_error _ _ _ _ ha1 with h' | h' <;> simp at h'
              · rename_i ctx3 ha1
                split at h
                · rename_i e ha2
                  simp only [Except.error.injEq] at h
                  subst h
                  rcases appendBoundAt_error _ _ _ _ ha2 with h' | h' <;> simp at h'
                · simp at h

theorem endSection_svgXcMap (ri : Option ShapeInfo)
    (ii : Option (ShapeInfo × String × ImageFile)) (ti : Option TextInfo)
    (li : Option LineInfo) (ctx : Ctx) :
    (endSection ri ii ti li ctx).svgXcMap = ctx.svgXcMap := by
  rcases ri with - | r <;> rcases ii with - | ⟨im, fid, fe⟩ <;> rcases ti with - | t <;>
    rcases li with - | ln <;> rfl

/-- Every successfully processed group leaves the name map equal to the
old map with exactly the group's own registration prepended. -/
theorem processGroup_svgXcMap (itemId : String) (subs : List SubItem) (ctx ctx' : Ctx)
    (h : processGroup itemId subs ctx = .ok ctx') :
    ctx'.svgXcMap = (itemId, ctx.nextId) :: ctx.svgXcMap := by
  unfold processGroup classifyAndBuild at h
  split at h
  · exact absurd h (by simp)
  · rename_i c hc
    simp only [processClassified] at h
    split at h
    · exact absurd h (by simp)
    · rename_i tc htc
      split at h
      · exact absurd h (by simp)
      · rename_i lc hlc
        simp only [Except.ok.injEq] at h
        subst h
        obtain ⟨t1, -, -, -, -, -⟩ := textBlock_fields _ _ tc.1 tc.2 (by rw [htc])
        obtain ⟨l1, -, -, -, -, -⟩ := lineBlock_fields _ _ _ lc.1 lc.2 (by rw [hlc])
        rw [endSection_svgXcMap, l1, t1]
        rw [(imageBlock_fields _ _ _).1, (rectBlock_fields _ _ _).1]
        rfl

/-- A name already registered in the map can never be the subject of an
unresolved-reference failure of a later group. -/
theorem processGroup_not_unresolved (itemId : String) (subs : List SubItem) (ctx : Ctx)
    (a : String) (ha : assoc ctx.svgXcMap a ≠ none) :
    processGroup itemId subs ctx ≠ .error (.unresolvedReference a) := by
  intro h
  unfold processGroup classifyAndBuild at h
  split at h
  · rename_i e hce
    simp only [Except.error.injEq] at h
    subst h
    exact absurd (classify_error subs _ _ _ _ _ hce) (by simp)
  · rename_i c hc
    simp only [processClassified] at h
    split at h
    · rename_i e hte
      simp only [Except.error.injEq] at h
      subst h
      exact absurd (textBlock_error _ _ _ hte) (by simp)
    · rename_i tc htc
      split at h
      · rename_i e hle
        simp only [Except.error.injEq] at h
        subst h
        obtain ⟨t1, -, -, -, -, -⟩ := textBlock_fields _ _ tc.1 tc.2 (by rw [htc])
        have := lineBlock_unresolved _ _ _ a hle
        rw [t1] at this
        rw [(imageBlock_fields _ _ _).1, (rectBlock_fields _ _ _).1] at this
        simp only [registerGroup, assoc] at this
        split at this
        · exact absurd this (by simp)
        · exact ha this
      · exact absurd h (by simp)

/-- After a successful run, every group of the input is registered in
the name map, edge groups included. -/
theorem runItems_registers (items : List SvgItem) : ∀ ctx ctx' : Ctx,
    runItems items ctx = .ok ctx' →
    ∀ itemId subs, SvgItem.g itemId subs ∈ items →
    assoc ctx'.svgXcMap itemId ≠ none := by
  induction items with
  | nil =>
      intro ctx ctx' h itemId subs hm
      simp at hm
  | cons it rest ih =>
      intro ctx ctx' h itemId subs hm
      cases it with
      | g gid gsubs =>
          simp only [runItems] at h
          split at h
          · exact absurd h (by simp)
          · rename_i c1 hc1
            rcases List.mem_cons.mp hm with heq | hm'
            · injection heq with hh1 hh2
              subst hh1
              subst hh2
              have hreg : assoc c1.svgXcMap itemId ≠ none := by
                rw [processGroup_svgXcMap _ _ _ _ hc1]
                simp [assoc]
              obtain ⟨-, -, -, -, hmap, -, -⟩ := runItems_evolve rest c1 ctx' h
              exact hmap itemId hreg
            · exact ih c1 ctx' h itemId subs hm'
      | other =>
          simp only [runItems] at h
          rcases List.mem_cons.mp hm with heq | hm'
          · exact absurd heq (by simp)
          · exact ih ctx ctx' h itemId subs hm'

/-! ## Scene-level persistence -/

theorem runItems_append_ok (l1 l2 : List SvgItem) (ctx c1 : Ctx)
    (h : runItems l1 ctx = .ok c1) :
    runItems (l1 ++ l2) ctx = runItems l2 c1 := by
  rw [runItems_append, h]

theorem fromSvgItems_of_run (items : List SvgItem) (ctxF : Ctx)
    (h : runItems items initCtx = .ok ctxF) :
    fromSvgItems items = .ok (mkScene ctxF) := by
  unfold fromSvgItems
  rw [h]

theorem fromSvgItems_error_of (pre post : List SvgItem) (itemId : String)
    (subs : List SubItem) (ctx : Ctx) (e : XErr)
    (hpre : runItems pre initCtx = .ok ctx)
    (hg : processGroup itemId subs ctx = .error e) :
    fromSvgItems (pre ++ SvgItem.g itemId subs :: post) = .error e := by
  unfold fromSvgItems
  rw [runItems_append_ok pre _ initCtx ctx hpre]
  simp only [runItems, hg]

/-- An element created by some prefix of the input survives into the
final scene, unchanged except for appended arrow back-references. -/
theorem scene_elt_after (items post : List SvgItem) (ctx1 : Ctx) (scene : Scene)
    (p idx : Nat)
    (h1 : runItems items initCtx = .ok ctx1)
    (hs : fromSvgItems (items ++ post) = .ok scene)
    (hp : nth 0 ctx1.elements p = idx) (hplen : p < ctx1.elements.length)
    (hidx : idx < ctx1.store.length) :
    p < scene.elements.length ∧
    ArrowExt (nth default ctx1.store idx) (nth default scene.elements p) := by
  unfold fromSvgItems at hs
  rw [runItems_append_ok items post initCtx ctx1 h1] at hs
  cases hF : runItems post ctx1 with
  | error e => rw [hF] at hs; exact absurd hs (by simp)
  | ok ctxF =>
      rw [hF] at hs
      simp only [Except.ok.injEq] at hs
      subst hs
      obtain ⟨E1, E2, ⟨nw, E3⟩, E4, E5, E6, E7⟩ := runItems_evolve post ctx1 ctxF hF
      have hplen' : p < ctxF.elements.length := by
        rw [E3, List.length_append]
        omega
      constructor
      · simpa [mkScene] using hplen'
      · have hpe : nth 0 ctxF.elements p = idx := by
          rw [E3, nth_append_lt _ _ _ _ hplen, hp]
        have hm : nth default (mkScene ctxF).elements p = nth default ctxF.store idx := by
          simp only [mkScene]
          rw [nth_map default 0 _ _ p hplen', hpe]
        rw [hm]
        exact E4 idx hidx

/-- Blob-map key counts survive into the final scene: an established
key keeps exactly its count bound, and no key ever has two entries. -/
theorem scene_files_after (items post : List SvgItem) (ctx1 : Ctx) (scene : Scene)
    (h1 : runItems items initCtx = .ok ctx1)
    (hs : fromSvgItems (items ++ post) = .ok scene) :
    ∀ k, keyCount k ctx1.files ≤ keyCount k scene.files ∧
      keyCount k scene.files ≤ max (keyCount k ctx1.files) 1 := by
  unfold fromSvgItems at hs
  rw [runItems_append_ok items post initCtx ctx1 h1] at hs
  cases hF : runItems post ctx1 with
  | error e => rw [hF] at hs; exact absurd hs (by simp)
  | ok ctxF =>
      rw [hF] at hs
      simp only [Except.ok.injEq] at hs
      subst hs
      obtain ⟨-, -, -, -, -, E6, E7⟩ := runItems_evolve post ctx1 ctxF hF
      intro k
      exact ⟨E6 k, E7 k⟩

/-- The blob map of any produced scene has at most one entry per key. -/
theorem scene_files_unique (items : List SvgItem) (scene : Scene)
    (hs : fromSvgItems items = .ok scene) : ∀ k, keyCount k scene.files ≤ 1 := by
  unfold fromSvgItems at hs
  cases hF : runItems items initCtx with
  | error e => rw [hF] at hs; exact absurd hs (by simp)
  | ok ctxF =>
      rw [hF] at hs
      simp only [Except.ok.injEq] at hs
      subst hs
      obtain ⟨-, -, -, -, -, -, E7⟩ := runItems_evolve items initCtx ctxF hF
      intro k
      have := E7 k
      simpa [initCtx, keyCount, mkScene] using this

theorem nth_append_len {α : Type} (d : α) (l : List α) (x : α) (l2 : List α) :
    nth d (l ++ x :: l2) l.length = x := by
  simpa using nth_append_right d l (x :: l2) 0

theorem nth_append_len1 {α : Type} (d : α) (l : List α) (x y : α) (l2 : List α) :
    nth d (l ++ x :: y :: l2) (l.length + 1) = y := by
  simpa [nth] using nth_append_right d l (x :: y :: l2) 1

theorem runItems_g_ok (itemId : String) (subs : List SubItem) (ctx c1 : Ctx)
    (rest : List SvgItem) (h : processGroup itemId subs ctx = .ok c1) :
    runItems (SvgItem.g itemId subs :: rest) ctx = runItems rest c1 := by
  simp [runItems, h]

theorem endBind_files (ri : Option ShapeInfo) (ii : Option (ShapeInfo × String × ImageFile))
    (ti : Option TextInfo) (ctx : Ctx) : (endBind ri ii ti ctx).files = ctx.files := by
  rcases ri with - | r <;> rcases ii with - | ⟨im, fid, fe⟩ <;> rcases ti with - | t <;> rfl

theorem endAppend_files_image (ri : Option ShapeInfo) (im : ShapeInfo) (fid : String)
    (fe : ImageFile) (ti : Option TextInfo) (li : Option LineInfo) (ctx : Ctx) :
    (endAppend ri (some (im, fid, fe)) ti li ctx).files = dictInsert fid fe ctx.files := by
  rcases ri with - | r <;> rcases ti with - | t <;> rcases li with - | ln <;> rfl

theorem endAppend_files_none (ri : Option ShapeInfo) (ti : Option TextInfo)
    (li : Option LineInfo) (ctx : Ctx) :
    (endAppend ri none ti li ctx).files = ctx.files := by
  rcases ri with - | r <;> rcases ti with - | t <;> rcases li with - | ln <;> rfl

/-- The blob map after one group: an image group inserts exactly its
content-addressed entry; a group without an image leaves the map
unchanged. -/
theorem processClassified_files (itemId : String) (xcId : Nat) (c : Classified)
    (ctx ctx' : Ctx) (h : processClassified itemId xcId c ctx = .ok ctx') :
    (∀ ia, c.image = some ia →
      ctx'.files = dictInsert (image_id ia.href)
        ⟨"image/svg+xml", image_id ia.href, ia.href⟩ ctx.files) ∧
    (c.image = none → ctx'.files = ctx.files) := by
  simp only [processClassified] at h
  split at h
  · exact absurd h (by simp)
  · rename_i tc htc
    split at h
    · exact absurd h (by simp)
    · rename_i lc hlc
      simp only [Except.ok.injEq] at h
      subst h
      obtain ⟨-, tf, -, -, -, -⟩ := textBlock_fields _ _ tc.1 tc.2 (by rw [htc])
      obtain ⟨-, lf, -, -, -, -⟩ := lineBlock_fields _ _ _ lc.1 lc.2 (by rw [hlc])
      have hch : lc.1.files = ctx.files := by
        rw [lf, tf, (imageBlock_fields _ _ _).2.1, (rectBlock_fields _ _ _).2.1]
      constructor
      · intro ia him
        have hii : (imageBlock xcId c.image (rectBlock xcId c.rect ctx).1).2 =
            some (⟨xcId, (rectBlock xcId c.rect ctx).1.store.length,
                    imageABounds ia⟩, image_id ia.href,
                  ⟨"image/svg+xml", image_id ia.href, ia.href⟩) := by
          rw [him]
          simp [imageBlock]
        rw [show endSection (rectBlock xcId c.rect ctx).2
            (imageBlock xcId c.image (rectBlock xcId c.rect ctx).1).2 tc.2 lc.2 lc.1 =
            endAppend (rectBlock xcId c.rect ctx).2
            (imageBlock xcId c.image (rectBlock xcId c.rect ctx).1).2 tc.2 lc.2
            (endBind (rectBlock xcId c.rect ctx).2
              (imageBlock xcId c.image (rectBlock xcId c.rect ctx).1).2 tc.2 lc.1) from rfl]
        rw [hii, endAppend_files_image, endBind_files, hch]
      · intro him
        have hii : (imageBlock xcId c.image (rectBlock xcId c.rect ctx).1).2 = none := by
          rw [him]
          simp [imageBlock]
        rw [show endSection (rectBlock xcId c.rect ctx).2
            (imageBlock xcId c.image (rectBlock xcId c.rect ctx).1).2 tc.2 lc.2 lc.1 =
            endAppend (rectBlock xcId c.rect ctx).2
            (imageBlock xcId c.image (rectBlock xcId c.rect ctx).1).2 tc.2 lc.2
            (endBind (rectBlock xcId c.rect ctx).2
              (imageBlock xcId c.image (rectBlock xcId c.rect ctx).1).2 tc.2 lc.1) from rfl]
        rw [hii, endAppend_files_none, endBind_files, hch]

/-- Result of a unit group holding only a rectangle. -/
theorem build_rect_only (itemId : String) (xcId : Nat) (ra : RectA) (ctx : Ctx) :
    processClassified itemId xcId ⟨some ra, none, none, none⟩ ctx =
      .ok { ctx with
        shapeBounds := (xcId, rectABounds ra) :: ctx.shapeBounds,
        shapeEltMap := (xcId, ctx.store.length) :: ctx.shapeEltMap,
        store := ctx.store ++ [mkRectElt xcId (rectABounds ra)],
        elements := ctx.elements ++ [ctx.store.length],
        lastBounds := some (rectABounds ra) } := by
  simp only [processClassified, rectBlock, imageBlock, textBlock, lineBlock, endSection,
    endBind, endAppend]

/-! ## Claims -/

theorem scene_one_elt (pre post : List SvgItem) (itemId : String) (subs : List SubItem)
    (ctx0 ctx1 : Ctx) (scene : Scene) (i1 : Nat) (e1 : Element)
    (hpre : runItems pre initCtx = .ok ctx0)
    (hg : processGroup itemId subs ctx0 = .ok ctx1)
    (hel : ctx1.elements = ctx0.elements ++ [i1])
    (hi1lt : i1 < ctx1.store.length)
    (hi1 : nth default ctx1.store i1 = e1)
    (hs : fromSvgItems (pre ++ SvgItem.g itemId subs :: post) = .ok scene) :
    ctx0.elements.length < scene.elements.length ∧
    ArrowExt e1 (nth default scene.elements ctx0.elements.length) := by
  have hrun1 : runItems (pre ++ [SvgItem.g itemId subs]) initCtx = .ok ctx1 := by
    rw [runItems_append_ok pre _ initCtx ctx0 hpre, runItems_g_ok _ _ _ _ [] hg]
    simp [runItems]
  rw [show pre ++ SvgItem.g itemId subs :: post = (pre ++ [SvgItem.g itemId subs]) ++ post
    by simp] at hs
  have h := scene_elt_after _ post ctx1 scene ctx0.elements.length i1 hrun1 hs
    (by rw [hel]; exact nth_append_len 0 _ _ []) (by rw [hel]; simp) hi1lt
  rw [hi1] at h
  exact h

theorem scene_two_elts (pre post : List SvgItem) (itemId : String) (subs : List SubItem)
    (ctx0 ctx1 : Ctx) (scene : Scene) (i1 i2 : Nat) (e1 e2 : Element)
    (hpre : runItems pre initCtx = .ok ctx0)
    (hg : processGroup itemId subs ctx0 = .ok ctx1)
    (hel : ctx1.elements = ctx0.elements ++ [i1, i2])
    (hi1lt : i1 < ctx1.store.length) (hi2lt : i2 < ctx1.store.length)
    (hi1 : nth default ctx1.store i1 = e1) (hi2 : nth default ctx1.store i2 = e2)
    (hs : fromSvgItems (pre ++ SvgItem.g itemId subs :: post) = .ok scene) :
    ctx0.elements.length + 1 < scene.elements.length ∧
    ArrowExt e1 (nth default scene.elements ctx0.elements.length) ∧
    ArrowExt e2 (nth default scene.elements (ctx0.elements.length + 1)) := by
  have hrun1 : runItems (pre ++ [SvgItem.g itemId subs]) initCtx = .ok ctx1 := by
    rw [runItems_append_ok pre _ initCtx ctx0 hpre, runItems_g_ok _ _ _ _ [] hg]
    simp [runItems]
  rw [show pre ++ SvgItem.g itemId subs :: post = (pre ++ [SvgItem.g itemId subs]) ++ post
    by simp] at hs
  have hA := scene_elt_after _ post ctx1 scene ctx0.elements.length i1 hrun1 hs
    (by rw [hel]; exact nth_append_len 0 _ _ [i2]) (by rw [hel]; simp) hi1lt
  have hB := scene_elt_after _ post ctx1 scene (ctx0.elements.length + 1) i2 hrun1 hs
    (by rw [hel]; exact nth_append_len1 0 _ _ _ []) (by rw [hel]; simp) hi2lt
  rw [hi1] at hA
  rw [hi2] at hB
  exact ⟨hB.1, hA.2, hB.2⟩

/-- C3: for every unit group containing both a rectangle and a text
label, after translation the rectangle's back-reference list contains
exactly one text-typed entry, that entry carrying the label's allocated
id, and the label's containerId equals the rectangle's allocated id. -/
theorem c3_rect_label_binding
    (pre post : List SvgItem) (itemId : String) (subs : List SubItem)
    (ra : RectA) (ta : TextA) (ctx0 : Ctx) (scene : Scene)
    (hpre : runItems pre initCtx = .ok ctx0)
    (hcl : classify subs none none none none = .ok ⟨some ra, none, some ta, none⟩)
    (hs : fromSvgItems (pre ++ SvgItem.g itemId subs :: post) = .ok scene) :
    ∃ rectE textE,
      nth default scene.elements ctx0.elements.length = rectE ∧
      nth default scene.elements (ctx0.elements.length + 1) = textE ∧
      ctx0.elements.length + 1 < scene.elements.length ∧
      rectE.type = "rectangle" ∧ rectE.id = ctx0.nextId ∧
      textE.type = "text" ∧ textE.id = ctx0.nextId + 1 ∧
      textE.containerId = some ctx0.nextId ∧
      textBoundCount rectE = 1 ∧
      (∃ lb, rectE.boundElements = some lb ∧ BoundElement.mk "text" (ctx0.nextId + 1) ∈ lb) := by
  obtain ⟨ctx1, hg, hc1⟩ : ∃ c, processGroup itemId subs ctx0 = .ok c ∧ c = _ :=
    ⟨_, (processGroup_eq_of_classify itemId subs ctx0 _ hcl).trans
        (build_rect_text itemId ctx0.nextId ra ta (registerGroup itemId ctx0)), rfl⟩
  have htwo := scene_two_elts pre post itemId subs ctx0 ctx1 scene
    ctx0.store.length (ctx0.store.length + 1)
    (rectLabeled ctx0.nextId (rectABounds ra) (ctx0.nextId + 1))
    (labelInRect (ctx0.nextId + 1) (rectABounds ra) ((findFontSize ta.style).getD 12)
      (pyStrip ta.content) ctx0.nextId)
    hpre hg
    (by rw [hc1]; simp [registerGroup])
    (by rw [hc1]; simp [registerGroup])
    (by rw [hc1]; simp [registerGroup])
    (by rw [hc1]; simp only [registerGroup]; exact nth_append_len default _ _ _)
    (by rw [hc1]; simp only [registerGroup]; exact nth_append_len1 default _ _ _ _)
    hs
  obtain ⟨hlt, hA, hB⟩ := htwo
  have hcnt := hA.textBoundCount_eq
  obtain ⟨a1, a2, -, -, -, -, -, a8, -, -, -, -, -, -, hbA⟩ := hA
  obtain ⟨b1, b2, -, -, -, -, -, b8, -, -, -, -, -, -, -⟩ := hB
  refine ⟨_, _, rfl, rfl, hlt, ?_, ?_, ?_, ?_, ?_, ?_, ?_⟩
  · rw [a2]; rfl
  · rw [a1]; rfl
  · rw [b2]; rfl
  · rw [b1]; rfl
  · rw [b8]; rfl
  · rw [hcnt]; rfl
  · rcases hbA with ⟨h1, h2⟩ | ⟨lb, extra, h1, h2, h3⟩
    · exact absurd h1 (by simp [rectLabeled, appendBoundElt, mkRectElt])
    · refine ⟨lb ++ extra, h2, ?_⟩
      have : lb = [BoundElement.mk "text" (ctx0.nextId + 1)] := by
        simpa [rectLabeled, appendBoundElt, mkRectElt] using h1.symm
      rw [this]
      simp

/-- The scene produced from a concrete input (default scene when the
translation fails). -/
def sceneOf (items : List SvgItem) : Scene :=
  (fromSvgItems items).toOption.getD (mkScene initCtx)

theorem sceneOf_spec (items : List SvgItem) (ctxF : Ctx)
    (h : runItems items initCtx = .ok ctxF) :
    fromSvgItems items = .ok (sceneOf items) := by
  unfold sceneOf
  rw [fromSvgItems_of_run _ _ h]
  rfl

theorem runItems_single_ok (itemId : String) (subs : List SubItem) (ctx c1 : Ctx)
    (h : processGroup itemId subs ctx = .ok c1) :
    runItems [SvgItem.g itemId subs] ctx = .ok c1 := by
  simp [runItems, h]

/-- A concrete unit group: rectangle plus label. -/
def c3Item : SvgItem :=
  SvgItem.g "A"
    [SubItem.shapeGroup [ShapeChild.rect 10 20 100 66],
     SubItem.text 60 50 "font-size:16px" " lbl "]

theorem c3_eval : fromSvgItems [c3Item] = .ok (sceneOf [c3Item]) := by
  have hg := (processGroup_eq_of_classify "A"
      [SubItem.shapeGroup [ShapeChild.rect 10 20 100 66],
       SubItem.text 60 50 "font-size:16px" " lbl "] initCtx
      ⟨some ⟨10, 20, 100, 66⟩, none, some ⟨60, 50, "font-size:16px", " lbl "⟩, none⟩
      rfl).trans
    (build_rect_text "A" initCtx.nextId ⟨10, 20, 100, 66⟩
      ⟨60, 50, "font-size:16px", " lbl "⟩ (registerGroup "A" initCtx))
  exact sceneOf_spec _ _ (runItems_single_ok "A" _ initCtx _ hg)

theorem c3_witness :
    ∃ rectE textE,
      nth default (sceneOf [c3Item]).elements 0 = rectE ∧
      nth default (sceneOf [c3Item]).elements 1 = textE ∧
      1 < (sceneOf [c3Item]).elements.length ∧
      rectE.type = "rectangle" ∧ rectE.id = 0 ∧
      textE.type = "text" ∧ textE.id = 1 ∧
      textE.containerId = some 0 ∧
      textBoundCount rectE = 1 ∧
      (∃ lb, rectE.boundElements = some lb ∧ BoundElement.mk "text" 1 ∈ lb) := by
  have h := c3_rect_label_binding [] [] "A"
    [SubItem.shapeGroup [ShapeChild.rect 10 20 100 66],
     SubItem.text 60 50 "font-size:16px" " lbl "]
    ⟨10, 20, 100, 66⟩ ⟨60, 50, "font-size:16px", " lbl "⟩ initCtx (sceneOf [c3Item])
    rfl rfl (by simpa [c3Item] using c3_eval)
  simpa [initCtx] using h

theorem parsePathGeom_ok_shape (dstr : String) (geom : PathGeom)
    (h : parsePathGeom dstr = .ok geom) :
    ∃ p q, geom.points = [((0 : ℚ), (0 : ℚ)), p, q] := by
  simp only [parsePathGeom] at h
  split at h
  · exact absurd h (by simp)
  · split at h
    · exact absurd h (by simp)
    · split at h
      · exact absurd h (by simp)
      · split at h
        · exact absurd h (by simp)
        · split at h
          · exact absurd h (by simp)
          · split at h
            · exact absurd h (by simp)
            · split at h
              · exact absurd h (by simp)
              · split at h
                · exact absurd h (by simp)
                · split at h
                  · exact absurd h (by simp)
                  · split at h
                    · exact absurd h (by simp)
                    · split at h
                      · exact absurd h (by simp)
                      · simp only [Except.ok.injEq] at h
                        subst h
                        exact ⟨_, _, rfl⟩

/-- Lookup in the name map right after registering the current group,
for a name different from the current group's identifier. -/
theorem assoc_registered (itemId a : String) (ctx : Ctx) (hne : a ≠ itemId) :
    assoc (registerGroup itemId ctx).svgXcMap a = assoc ctx.svgXcMap a := by
  simp [registerGroup, assoc, hne]

/-- The arrow element of an edge group, as it appears in the final
scene: the element created by the line block, possibly with arrow
back-references appended. -/
theorem edge_scene_arrow (pre post : List SvgItem) (itemId : String) (subs : List SubItem)
    (pa : PathA) (u1 u2 : String) (sA sB siA siB : Nat) (lbA lbB : List BoundElement)
    (geom : PathGeom) (ctx0 : Ctx) (scene : Scene)
    (hpre : runItems pre initCtx = .ok ctx0)
    (hcl : classify subs none none none none = .ok ⟨none, some pa, none, none⟩)
    (hp : parseEdgeId itemId = some (u1, u2))
    (hne1 : u1 ≠ itemId) (hne2 : u2 ≠ itemId)
    (h1 : assoc ctx0.svgXcMap u1 = some sA)
    (h2 : assoc ctx0.svgXcMap u2 = some sB)
    (hg : lineGeom pa.d sA sB ctx0.shapeBounds = .ok geom)
    (hsA : assoc ctx0.shapeEltMap sA = some siA) (hltA : siA < ctx0.store.length)
    (hsB : assoc ctx0.shapeEltMap sB = some siB) (hltB : siB < ctx0.store.length)
    (hbA : (nth default ctx0.store siA).boundElements = some lbA)
    (hbB : (nth default ctx0.store siB).boundElements = some lbB)
    (hs : fromSvgItems (pre ++ SvgItem.g itemId subs :: post) = .ok scene) :
    ctx0.elements.length < scene.elements.length ∧
    ArrowExt (mkLineElt (ctx0.nextId + 1) geom sA sB)
      (nth default scene.elements ctx0.elements.length) := by
  obtain ⟨ctx1, hgrp, hc1⟩ : ∃ c, processGroup itemId subs ctx0 = .ok c ∧ c = _ :=
    ⟨_, (processGroup_eq_of_classify itemId subs ctx0 _ hcl).trans
        (build_edge itemId ctx0.nextId pa (registerGroup itemId ctx0) u1 u2 sA sB siA siB
          geom lbA lbB hp
          ((assoc_registered itemId u1 ctx0 hne1).trans h1)
          ((assoc_registered itemId u2 ctx0 hne2).trans h2)
          hg hsA hltA hsB hltB hbA hbB), rfl⟩
  refine scene_one_elt pre post itemId subs ctx0 ctx1 scene ctx0.store.length
    (mkLineElt (ctx0.nextId + 1) geom sA sB) hpre hgrp ?_ ?_ ?_ hs
  · rw [hc1]
    simp [registerGroup]
  · rw [hc1]
    simp [registerGroup, storeModify_length]
  · rw [hc1]
    simp only [registerGroup]
    rw [nth_storeModify_ne _ _ _ _ _ (Nat.ne_of_gt hltB),
      nth_storeModify_ne _ _ _ _ _ (Nat.ne_of_gt hltA)]
    exact nth_append_len default _ _ _

/-! ## A concrete demo document: two rectangle units and edges -/

/-- Demo unit group A. -/
def wUnitA : SvgItem := SvgItem.g "A" [SubItem.shapeGroup [ShapeChild.rect 0 0 100 66]]

/-- Demo unit group B. -/
def wUnitB : SvgItem := SvgItem.g "B" [SubItem.shapeGroup [ShapeChild.rect 300 0 120 80]]

/-- Demo edge group with explicit cubic path data. -/
def wEdgeD : SvgItem :=
  SvgItem.g "(A -> B)[0]" [SubItem.path (some "M 100 33 C 150,40 250 40 300 60")]

/-- Demo edge group with no path data (straight-line fallback). -/
def wEdgeS : SvgItem := SvgItem.g "(A -> B)[1]" [SubItem.path none]

/-- Bounds of demo unit A. -/
def wb1 : Bounds := ⟨0, 0, 100, 66⟩

/-- Bounds of demo unit B. -/
def wb2 : Bounds := ⟨300, 0, 120, 80⟩

/-- The context after the two demo unit groups. -/
def wctx2 : Ctx :=
  { nextId := 2, svgXcMap := [("B", 1), ("A", 0)],
    shapeBounds := [(1, wb2), (0, wb1)], shapeEltMap := [(1, 1), (0, 0)],
    store := [mkRectElt 0 wb1, mkRectElt 1 wb2], elements := [0, 1],
    files := [], lastBounds := some wb2 }

theorem wbounds1 : rectABounds ⟨0, 0, 100, 66⟩ = wb1 := by
  simp only [rectABounds, wb1, pyTrunc, Bounds.mk.injEq]
  norm_num

theorem wbounds2 : rectABounds ⟨300, 0, 120, 80⟩ = wb2 := by
  simp only [rectABounds, wb2, pyTrunc, Bounds.mk.injEq]
  norm_num

theorem wrun2 : runItems [wUnitA, wUnitB] initCtx = .ok wctx2 := by
  have hgA := (processGroup_eq_of_classify "A" [SubItem.shapeGroup [ShapeChild.rect 0 0 100 66]]
      initCtx ⟨some ⟨0, 0, 100, 66⟩, none, none, none⟩ rfl).trans
    (build_rect_only "A" initCtx.nextId ⟨0, 0, 100, 66⟩ (registerGroup "A" initCtx))
  rw [show ([wUnitA, wUnitB] : List SvgItem) =
    SvgItem.g "A" [SubItem.shapeGroup [ShapeChild.rect 0 0 100 66]] :: [wUnitB] from rfl]
  rw [runItems_g_ok _ _ _ _ _ hgA]
  rw [show ([wUnitB] : List SvgItem) =
    [SvgItem.g "B" [SubItem.shapeGroup [ShapeChild.rect 300 0 120 80]]] from rfl]
  rw [runItems_single_ok _ _ _ _
    ((processGroup_eq_of_classify "B" [SubItem.shapeGroup [ShapeChild.rect 300 0 120 80]]
        _ ⟨some ⟨300, 0, 120, 80⟩, none, none, none⟩ rfl).trans
      (build_rect_only "B" _ ⟨300, 0, 120, 80⟩ (registerGroup "B" _)))]
  rw [wbounds1, wbounds2]
  rfl

/-- C1 (amended): every connector produced from explicit cubic-curve
data has (0,0) as the first entry of its ordered point list, the
subsequent entries being offsets from the curve's start anchor; a
connector produced by the straight-line fallback instead starts at the
source-shape offset (see the fallback theorem for C7). -/
theorem c1_curve_connector_origin
    (pre post : List SvgItem) (itemId : String) (subs : List SubItem)
    (dstr : String) (u1 u2 : String) (sA sB siA siB : Nat)
    (lbA lbB : List BoundElement) (geom : PathGeom) (ctx0 : Ctx) (scene : Scene)
    (hpre : runItems pre initCtx = .ok ctx0)
    (hcl : classify subs none none none none = .ok ⟨none, some ⟨some dstr⟩, none, none⟩)
    (hp : parseEdgeId itemId = some (u1, u2))
    (hne1 : u1 ≠ itemId) (hne2 : u2 ≠ itemId)
    (h1 : assoc ctx0.svgXcMap u1 = some sA)
    (h2 : assoc ctx0.svgXcMap u2 = some sB)
    (hg : parsePathGeom dstr = .ok geom)
    (hsA : assoc ctx0.shapeEltMap sA = some siA) (hltA : siA < ctx0.store.length)
    (hsB : assoc ctx0.shapeEltMap sB = some siB) (hltB : siB < ctx0.store.length)
    (hbA : (nth default ctx0.store siA).boundElements = some lbA)
    (hbB : (nth default ctx0.store siB).boundElements = some lbB)
    (hs : fromSvgItems (pre ++ SvgItem.g itemId subs :: post) = .ok scene) :
    ∃ arrowE p q,
      nth default scene.elements ctx0.elements.length = arrowE ∧
      ctx0.elements.length < scene.elements.length ∧
      arrowE.type = "arrow" ∧
      arrowE.points = [((0 : ℚ), (0 : ℚ)), p, q] := by
  obtain ⟨hlt, hA⟩ := edge_scene_arrow pre post itemId subs ⟨some dstr⟩ u1 u2 sA sB siA siB
    lbA lbB geom ctx0 scene hpre hcl hp hne1 hne2 h1 h2 (by simpa [lineGeom] using hg)
    hsA hltA hsB hltB hbA hbB hs
  obtain ⟨p, q, hpq⟩ := parsePathGeom_ok_shape dstr geom hg
  obtain ⟨-, a2, -, -, -, -, -, -, a9, -, -, -, -, -, -⟩ := hA
  refine ⟨_, p, q, rfl, hlt, by rw [a2]; rfl, ?_⟩
  rw [a9]
  simpa [mkLineElt] using hpq

/-- C1 counterexample: in the straight-line fallback the first point of
the connector is the start offset on the source shape, not (0,0). -/
theorem c1_counterexample :
    ∃ arrowE,
      fromSvgItems [wUnitA, wUnitB, wEdgeS] = .ok (sceneOf [wUnitA, wUnitB, wEdgeS]) ∧
      nth default (sceneOf [wUnitA, wUnitB, wEdgeS]).elements 2 = arrowE ∧
      arrowE.type = "arrow" ∧
      nth (0, 0) arrowE.points 0 = ((100 : ℚ), (33 : ℚ)) ∧
      nth (0, 0) arrowE.points 0 ≠ ((0 : ℚ), (0 : ℚ)) := by
  obtain ⟨ctx1, hgE, hc1⟩ : ∃ c,
      processGroup "(A -> B)[1]" [SubItem.path none] wctx2 = .ok c ∧ c = _ :=
    ⟨_, (processGroup_eq_of_classify "(A -> B)[1]" [SubItem.path none] wctx2
          ⟨none, some ⟨none⟩, none, none⟩ rfl).trans
        (build_edge "(A -> B)[1]" 2 ⟨none⟩ (registerGroup "(A -> B)[1]" wctx2) "A" "B"
          0 1 0 1 ⟨wb1, wb2, straightPointList wb1 wb2⟩ [] []
          (by decide) (by decide) (by decide) rfl
          (by decide) (by decide) (by decide) (by decide) rfl rfl), rfl⟩
  have hrun : runItems [wUnitA, wUnitB, wEdgeS] initCtx = .ok ctx1 := by
    rw [show ([wUnitA, wUnitB, wEdgeS] : List SvgItem) =
      [wUnitA, wUnitB] ++ [wEdgeS] from rfl, runItems_append_ok _ _ _ _ wrun2]
    exact runItems_single_ok _ _ _ _ hgE
  have hs := sceneOf_spec _ _ hrun
  have hsc : sceneOf [wUnitA, wUnitB, wEdgeS] = mkScene ctx1 := by
    rw [sceneOf, fromSvgItems_of_run _ _ hrun]
    rfl
  refine ⟨_, hs, rfl, ?_, ?_, ?_⟩
  · rw [hsc, hc1]
    rfl
  · rw [hsc, hc1]
    show nth (0, 0) (straightPointList wb1 wb2) 0 = ((100 : ℚ), (33 : ℚ))
    simp only [straightPointList, wb1, wb2, nth]
    norm_num
  · rw [hsc, hc1]
    show nth (0, 0) (straightPointList wb1 wb2) 0 ≠ ((0 : ℚ), (0 : ℚ))
    simp only [straightPointList, wb1, wb2, nth]
    norm_num

theorem wparseD : parsePathGeom "M 100 33 C 150,40 250 40 300 60" =
    .ok ⟨⟨100, 33, 0, 0⟩, ⟨300, 60, 0, 0⟩,
         [(0, 0), (50, 7), (200, 27)]⟩ := by
  have h := parsePathGeom_ok "M 100 33 C 150,40 250 40 300 60"
    100 33 300 60 150 40 300 60 (by decide)
    (by simp +decide [parseTok, parseFloat, digitsVal, tokenizePath, splitTok, splitSkip, nth])
    (by simp +decide [parseTok, parseFloat, digitsVal, tokenizePath, splitTok, splitSkip, nth])
    (by simp +decide [parseTok, parseFloat, digitsVal, tokenizePath, splitTok, splitSkip, nth])
    (by simp +decide [parseTok, parseFloat, digitsVal, tokenizePath, splitTok, splitSkip, nth])
    (by simp +decide [parseTok, parseFloat, digitsVal, tokenizePath, splitTok, splitSkip, nth])
    (by simp +decide [parseTok, parseFloat, digitsVal, tokenizePath, splitTok, splitSkip, nth])
    (by simp +decide [parseTok, parseFloat, digitsVal, tokenizePath, splitTok, splitSkip, nth])
    (by simp +decide [parseTok, parseFloat, digitsVal, tokenizePath, splitTok, splitSkip, nth])
  rw [h]
  norm_num

theorem c1_witness :
    ∃ arrowE p q,
      nth default (sceneOf [wUnitA, wUnitB, wEdgeD]).elements 2 = arrowE ∧
      2 < (sceneOf [wUnitA, wUnitB, wEdgeD]).elements.length ∧
      arrowE.type = "arrow" ∧
      arrowE.points = [((0 : ℚ), (0 : ℚ)), p, q] := by
  obtain ⟨ctx1, hgE, -⟩ : ∃ c,
      processGroup "(A -> B)[0]"
        [SubItem.path (some "M 100 33 C 150,40 250 40 300 60")] wctx2 = .ok c ∧ c = _ :=
    ⟨_, (processGroup_eq_of_classify "(A -> B)[0]"
          [SubItem.path (some "M 100 33 C 150,40 250 40 300 60")] wctx2
          ⟨none, some ⟨some "M 100 33 C 150,40 250 40 300 60"⟩, none, none⟩ rfl).trans
        (build_edge "(A -> B)[0]" 2 ⟨some "M 100 33 C 150,40 250 40 300 60"⟩
          (registerGroup "(A -> B)[0]" wctx2) "A" "B" 0 1 0 1
          ⟨⟨100, 33, 0, 0⟩, ⟨300, 60, 0, 0⟩, [(0, 0), (50, 7), (200, 27)]⟩ [] []
          (by decide) (by decide) (by decide)
          (by simpa [lineGeom] using wparseD)
          (by decide) (by decide) (by decide) (by decide) rfl rfl), rfl⟩
  have hrun : runItems [wUnitA, wUnitB, wEdgeD] initCtx = .ok ctx1 := by
    rw [show ([wUnitA, wUnitB, wEdgeD] : List SvgItem) =
      [wUnitA, wUnitB] ++ [wEdgeD] from rfl, runItems_append_ok _ _ _ _ wrun2]
    exact runItems_single_ok _ _ _ _ hgE
  have hs := sceneOf_spec _ _ hrun
  have h := c1_curve_connector_origin [wUnitA, wUnitB] [] "(A -> B)[0]"
    [SubItem.path (some "M 100 33 C 150,40 250 40 300 60")]
    "M 100 33 C 150,40 250 40 300 60" "A" "B" 0 1 0 1 [] []
    ⟨⟨100, 33, 0, 0⟩, ⟨300, 60, 0, 0⟩, [(0, 0), (50, 7), (200, 27)]⟩
    wctx2 (sceneOf [wUnitA, wUnitB, wEdgeD]) wrun2 rfl
    (by decide) (by decide) (by decide) (by decide) (by decide) wparseD
    (by decide) (by decide) (by decide) (by decide) rfl rfl
    (by simpa using hs)
  simpa [wctx2] using h

/-- C2: for an edge group whose identifier carries the pattern of a
source and target name, if both names are registered the connector's
start and end bindings hold exactly the ids allocated for the source
and the target; if the source name is unregistered the translation
fails with the unresolved-reference error for it, and if only the
target name is unregistered the translation fails with the
unresolved-reference error for the target. -/
theorem c2_edge_bindings
    (pre post : List SvgItem) (itemId : String) (subs : List SubItem) (pa : PathA)
    (u1 u2 : String) (ctx0 : Ctx)
    (hpre : runItems pre initCtx = .ok ctx0)
    (hcl : classify subs none none none none = .ok ⟨none, some pa, none, none⟩)
    (hp : parseEdgeId itemId = some (u1, u2))
    (hne1 : u1 ≠ itemId) (hne2 : u2 ≠ itemId) :
    (∀ sA sB siA siB lbA lbB geom scene,
      assoc ctx0.svgXcMap u1 = some sA →
      assoc ctx0.svgXcMap u2 = some sB →
      lineGeom pa.d sA sB ctx0.shapeBounds = .ok geom →
      assoc ctx0.shapeEltMap sA = some siA → siA < ctx0.store.length →
      assoc ctx0.shapeEltMap sB = some siB → siB < ctx0.store.length →
      (nth default ctx0.store siA).boundElements = some lbA →
      (nth default ctx0.store siB).boundElements = some lbB →
      fromSvgItems (pre ++ SvgItem.g itemId subs :: post) = .ok scene →
      ((nth default scene.elements ctx0.elements.length).type = "arrow" ∧
       (nth default scene.elements ctx0.elements.length).startBinding = some ⟨sA, 0, 1⟩ ∧
       (nth default scene.elements ctx0.elements.length).endBinding = some ⟨sB, 0, 1⟩)) ∧
    (assoc ctx0.svgXcMap u1 = none →
      fromSvgItems (pre ++ SvgItem.g itemId subs :: post) =
        .error (.unresolvedReference u1)) ∧
    (∀ sA, assoc ctx0.svgXcMap u1 = some sA → assoc ctx0.svgXcMap u2 = none →
      fromSvgItems (pre ++ SvgItem.g itemId subs :: post) =
        .error (.unresolvedReference u2)) := by
  refine ⟨?_, ?_, ?_⟩
  · intro sA sB siA siB lbA lbB geom scene h1 h2 hg hsA hltA hsB hltB hbA hbB hs
    obtain ⟨hlt, hA⟩ := edge_scene_arrow pre post itemId subs pa u1 u2 sA sB siA siB
      lbA lbB geom ctx0 scene hpre hcl hp hne1 hne2 h1 h2 hg hsA hltA hsB hltB hbA hbB hs
    obtain ⟨-, a2, -, -, -, -, -, -, -, -, -, a12, a13, -, -⟩ := hA
    exact ⟨by rw [a2]; rfl, by rw [a12]; rfl, by rw [a13]; rfl⟩
  · intro h1
    refine fromSvgItems_error_of pre post itemId subs ctx0 _ hpre ?_
    rw [processGroup_eq_of_classify itemId subs ctx0 _ hcl]
    exact build_edge_unresolved1 itemId ctx0.nextId pa _ u1 u2 hp
      ((assoc_registered itemId u1 ctx0 hne1).trans h1)
  · intro sA h1 h2
    refine fromSvgItems_error_of pre post itemId subs ctx0 _ hpre ?_
    rw [processGroup_eq_of_classify itemId subs ctx0 _ hcl]
    exact build_edge_unresolved2 itemId ctx0.nextId pa _ u1 u2 sA hp
      ((assoc_registered itemId u1 ctx0 hne1).trans h1)
      ((assoc_registered itemId u2 ctx0 hne2).trans h2)

theorem c2_witness :
    (nth default (sceneOf [wUnitA, wUnitB, wEdgeS]).elements 2).type = "arrow" ∧
    (nth default (sceneOf [wUnitA, wUnitB, wEdgeS]).elements 2).startBinding =
      some ⟨0, 0, 1⟩ ∧
    (nth default (sceneOf [wUnitA, wUnitB, wEdgeS]).elements 2).endBinding =
      some ⟨1, 0, 1⟩ := by
  obtain ⟨ctx1, hgE, -⟩ : ∃ c,
      processGroup "(A -> B)[1]" [SubItem.path none] wctx2 = .ok c ∧ c = _ :=
    ⟨_, (processGroup_eq_of_classify "(A -> B)[1]" [SubItem.path none] wctx2
          ⟨none, some ⟨none⟩, none, none⟩ rfl).trans
        (build_edge "(A -> B)[1]" 2 ⟨none⟩ (registerGroup "(A -> B)[1]" wctx2) "A" "B"
          0 1 0 1 ⟨wb1, wb2, straightPointList wb1 wb2⟩ [] []
          (by decide) (by decide) (by decide) rfl
          (by decide) (by decide) (by decide) (by decide) rfl rfl), rfl⟩
  have hrun : runItems [wUnitA, wUnitB, wEdgeS] initCtx = .ok ctx1 := by
    rw [show ([wUnitA, wUnitB, wEdgeS] : List SvgItem) =
      [wUnitA, wUnitB] ++ [wEdgeS] from rfl, runItems_append_ok _ _ _ _ wrun2]
    exact runItems_single_ok _ _ _ _ hgE
  have hs := sceneOf_spec _ _ hrun
  have h := (c2_edge_bindings [wUnitA, wUnitB] [] "(A -> B)[1]" [SubItem.path none]
    ⟨none⟩ "A" "B" wctx2 wrun2 rfl (by decide) (by decide) (by decide)).1
    0 1 0 1 [] [] ⟨wb1, wb2, straightPointList wb1 wb2⟩
    (sceneOf [wUnitA, wUnitB, wEdgeS])
    (by decide) (by decide) rfl (by decide) (by decide) (by decide) (by decide) rfl rfl
    (by simpa using hs)
  simpa [wctx2] using h

/-- C7: an edge group without explicit curve data builds its connector
from the endpoint shapes' registered bounds as exactly two points: the
start offset on the source shape (source width when the target lies to
the right, else 0; vertically half the source height), then the single
relative waypoint of the coordinate deltas. -/
theorem c7_straight_fallback
    (pre post : List SvgItem) (itemId : String) (subs : List SubItem)
    (u1 u2 : String) (sA sB siA siB : Nat) (lbA lbB : List BoundElement)
    (bA bB : Bounds) (ctx0 : Ctx) (scene : Scene)
    (hpre : runItems pre initCtx = .ok ctx0)
    (hcl : classify subs none none none none = .ok ⟨none, some ⟨none⟩, none, none⟩)
    (hp : parseEdgeId itemId = some (u1, u2))
    (hne1 : u1 ≠ itemId) (hne2 : u2 ≠ itemId)
    (h1 : assoc ctx0.svgXcMap u1 = some sA)
    (h2 : assoc ctx0.svgXcMap u2 = some sB)
    (hbnA : assoc ctx0.shapeBounds sA = some bA)
    (hbnB : assoc ctx0.shapeBounds sB = some bB)
    (hsA : assoc ctx0.shapeEltMap sA = some siA) (hltA : siA < ctx0.store.length)
    (hsB : assoc ctx0.shapeEltMap sB = some siB) (hltB : siB < ctx0.store.length)
    (hbA : (nth default ctx0.store siA).boundElements = some lbA)
    (hbB : (nth default ctx0.store siB).boundElements = some lbB)
    (hs : fromSvgItems (pre ++ SvgItem.g itemId subs :: post) = .ok scene) :
    ∃ arrowE,
      nth default scene.elements ctx0.elements.length = arrowE ∧
      ctx0.elements.length < scene.elements.length ∧
      arrowE.type = "arrow" ∧
      arrowE.points = [((if bA.x < bB.x then bA.width else 0 : ℚ), bA.height / 2),
                       (bB.x - bA.x, bB.y - bA.y)] := by
  obtain ⟨hlt, hA⟩ := edge_scene_arrow pre post itemId subs ⟨none⟩ u1 u2 sA sB siA siB
    lbA lbB ⟨bA, bB, straightPointList bA bB⟩ ctx0 scene hpre hcl hp hne1 hne2 h1 h2
    (by simp [lineGeom, hbnA, hbnB]) hsA hltA hsB hltB hbA hbB hs
  obtain ⟨-, a2, -, -, -, -, -, -, a9, -, -, -, -, -, -⟩ := hA
  refine ⟨_, rfl, hlt, by rw [a2]; rfl, ?_⟩
  rw [a9]
  have hiff : bB.x - bA.x > 0 ↔ bA.x < bB.x := sub_pos
  simp [mkLineElt, straightPointList, hiff]

theorem c7_witness :
    ∃ arrowE,
      nth default (sceneOf [wUnitA, wUnitB, wEdgeS]).elements 2 = arrowE ∧
      2 < (sceneOf [wUnitA, wUnitB, wEdgeS]).elements.length ∧
      arrowE.type = "arrow" ∧
      arrowE.points = [((100 : ℚ), (33 : ℚ)), ((300 : ℚ), (0 : ℚ))] := by
  obtain ⟨ctx1, hgE, -⟩ : ∃ c,
      processGroup "(A -> B)[1]" [SubItem.path none] wctx2 = .ok c ∧ c = _ :=
    ⟨_, (processGroup_eq_of_classify "(A -> B)[1]" [SubItem.path none] wctx2
          ⟨none, some ⟨none⟩, none, none⟩ rfl).trans
        (build_edge "(A -> B)[1]" 2 ⟨none⟩ (registerGroup "(A -> B)[1]" wctx2) "A" "B"
          0 1 0 1 ⟨wb1, wb2, straightPointList wb1 wb2⟩ [] []
          (by decide) (by decide) (by decide) rfl
          (by decide) (by decide) (by decide) (by decide) rfl rfl), rfl⟩
  have hrun : runItems [wUnitA, wUnitB, wEdgeS] initCtx = .ok ctx1 := by
    rw [show ([wUnitA, wUnitB, wEdgeS] : List SvgItem) =
      [wUnitA, wUnitB] ++ [wEdgeS] from rfl, runItems_append_ok _ _ _ _ wrun2]
    exact runItems_single_ok _ _ _ _ hgE
  have hs := sceneOf_spec _ _ hrun
  obtain ⟨arrowE, ha1, ha2, ha3, ha4⟩ := c7_straight_fallback [wUnitA, wUnitB] []
    "(A -> B)[1]" [SubItem.path none] "A" "B" 0 1 0 1 [] [] wb1 wb2 wctx2
    (sceneOf [wUnitA, wUnitB, wEdgeS]) wrun2 rfl (by decide) (by decide) (by decide)
    (by decide) (by decide) rfl rfl (by decide) (by decide) (by decide) (by decide)
    rfl rfl (by simpa using hs)
  refine ⟨arrowE, by simpa [wctx2] using ha1, by simpa [wctx2] using ha2, ha3, ?_⟩
  rw [ha4]
  norm_num [wb1, wb2]

/-- C6: an edge group whose curve data passes the token-format check
yields a connector with exactly three points, namely the origin, the
first control point relative to the start anchor (tokens 1,2), and the
final two tokens relative to the start anchor; the element is placed at
the start anchor with its extent taken from the end anchor tokens
8,9. -/
theorem c6_curve_points
    (pre post : List SvgItem) (itemId : String) (subs : List SubItem)
    (dstr : String) (u1 u2 : String) (sA sB siA siB : Nat)
    (lbA lbB : List BoundElement) (v1 v2 v8 v9 v4 v5 vm2 vm1 : ℚ)
    (ctx0 : Ctx) (scene : Scene)
    (hpre : runItems pre initCtx = .ok ctx0)
    (hcl : classify subs none none none none = .ok ⟨none, some ⟨some dstr⟩, none, none⟩)
    (hp : parseEdgeId itemId = some (u1, u2))
    (hne1 : u1 ≠ itemId) (hne2 : u2 ≠ itemId)
    (h1 : assoc ctx0.svgXcMap u1 = some sA)
    (h2 : assoc ctx0.svgXcMap u2 = some sB)
    (hgood : ¬ TokenBad (tokenizePath dstr))
    (p1 : parseTok (nth "" (tokenizePath dstr) 1) = .ok v1)
    (p2 : parseTok (nth "" (tokenizePath dstr) 2) = .ok v2)
    (p8 : parseTok (nth "" (tokenizePath dstr) 8) = .ok v8)
    (p9 : parseTok (nth "" (tokenizePath dstr) 9) = .ok v9)
    (p4 : parseTok (nth "" (tokenizePath dstr) 4) = .ok v4)
    (p5 : parseTok (nth "" (tokenizePath dstr) 5) = .ok v5)
    (pm2 : parseTok (nth "" (tokenizePath dstr) ((tokenizePath dstr).length - 2)) = .ok vm2)
    (pm1 : parseTok (nth "" (tokenizePath dstr) ((tokenizePath dstr).length - 1)) = .ok vm1)
    (hsA : assoc ctx0.shapeEltMap sA = some siA) (hltA : siA < ctx0.store.length)
    (hsB : assoc ctx0.shapeEltMap sB = some siB) (hltB : siB < ctx0.store.length)
    (hbA : (nth default ctx0.store siA).boundElements = some lbA)
    (hbB : (nth default ctx0.store siB).boundElements = some lbB)
    (hs : fromSvgItems (pre ++ SvgItem.g itemId subs :: post) = .ok scene) :
    ∃ arrowE,
      nth default scene.elements ctx0.elements.length = arrowE ∧
      ctx0.elements.length < scene.elements.length ∧
      arrowE.type = "arrow" ∧
      arrowE.points = [((0 : ℚ), (0 : ℚ)), (v4 - v1, v5 - v2), (vm2 - v1, vm1 - v2)] ∧
      arrowE.x = v1 ∧ arrowE.y = v2 ∧
      arrowE.width = |v8 - v1| ∧ arrowE.height = |v9 - v2| := by
  have hg := parsePathGeom_ok dstr v1 v2 v8 v9 v4 v5 vm2 vm1 hgood p1 p2 p8 p9 p4 p5 pm2 pm1
  obtain ⟨hlt, hA⟩ := edge_scene_arrow pre post itemId subs ⟨some dstr⟩ u1 u2 sA sB siA siB
    lbA lbB _ ctx0 scene hpre hcl hp hne1 hne2 h1 h2 (by simpa [lineGeom] using hg)
    hsA hltA hsB hltB hbA hbB hs
  obtain ⟨-, a2, a3, a4, a5, a6, -, -, a9, -, -, -, -, -, -⟩ := hA
  exact ⟨_, rfl, hlt, by rw [a2]; rfl, by rw [a9]; rfl, by rw [a3]; rfl,
    by rw [a4]; rfl, by rw [a5]; rfl, by rw [a6]; rfl⟩

theorem c6_witness :
    ∃ arrowE,
      nth default (sceneOf [wUnitA, wUnitB, wEdgeD]).elements 2 = arrowE ∧
      2 < (sceneOf [wUnitA, wUnitB, wEdgeD]).elements.length ∧
      arrowE.type = "arrow" ∧
      arrowE.points = [((0 : ℚ), (0 : ℚ)), ((50 : ℚ), (7 : ℚ)), ((200 : ℚ), (27 : ℚ))] ∧
      arrowE.x = (100 : ℚ) ∧ arrowE.y = (33 : ℚ) ∧
      arrowE.width = |(300 : ℚ) - 100| ∧ arrowE.height = |(60 : ℚ) - 33| := by
  obtain ⟨ctx1, hgE, -⟩ : ∃ c,
      processGroup "(A -> B)[0]"
        [SubItem.path (some "M 100 33 C 150,40 250 40 300 60")] wctx2 = .ok c ∧ c = _ :=
    ⟨_, (processGroup_eq_of_classify "(A -> B)[0]"
          [SubItem.path (some "M 100 33 C 150,40 250 40 300 60")] wctx2
          ⟨none, some ⟨some "M 100 33 C 150,40 250 40 300 60"⟩, none, none⟩ rfl).trans
        (build_edge "(A -> B)[0]" 2 ⟨some "M 100 33 C 150,40 250 40 300 60"⟩
          (registerGroup "(A -> B)[0]" wctx2) "A" "B" 0 1 0 1
          ⟨⟨100, 33, 0, 0⟩, ⟨300, 60, 0, 0⟩, [(0, 0), (50, 7), (200, 27)]⟩ [] []
          (by decide) (by decide) (by decide)
          (by simpa [lineGeom] using wparseD)
          (by decide) (by decide) (by decide) (by decide) rfl rfl), rfl⟩
  have hrun : runItems [wUnitA, wUnitB, wEdgeD] initCtx = .ok ctx1 := by
    rw [show ([wUnitA, wUnitB, wEdgeD] : List SvgItem) =
      [wUnitA, wUnitB] ++ [wEdgeD] from rfl, runItems_append_ok _ _ _ _ wrun2]
    exact runItems_single_ok _ _ _ _ hgE
  have hs := sceneOf_spec _ _ hrun
  obtain ⟨arrowE, ha1, ha2, ha3, ha4, ha5, ha6, ha7, ha8⟩ := c6_curve_points
    [wUnitA, wUnitB] [] "(A -> B)[0]"
    [SubItem.path (some "M 100 33 C 150,40 250 40 300 60")]
    "M 100 33 C 150,40 250 40 300 60" "A" "B" 0 1 0 1 [] []
    100 33 300 60 150 40 300 60 wctx2 (sceneOf [wUnitA, wUnitB, wEdgeD])
    wrun2 rfl (by decide) (by decide) (by decide) (by decide) (by decide) (by decide)
    (by simp +decide [parseTok, parseFloat, digitsVal, tokenizePath, splitTok, splitSkip, nth])
    (by simp +decide [parseTok, parseFloat, digitsVal, tokenizePath, splitTok, splitSkip, nth])
    (by simp +decide [parseTok, parseFloat, digitsVal, tokenizePath, splitTok, splitSkip, nth])
    (by simp +decide [parseTok, parseFloat, digitsVal, tokenizePath, splitTok, splitSkip, nth])
    (by simp +decide [parseTok, parseFloat, digitsVal, tokenizePath, splitTok, splitSkip, nth])
    (by simp +decide [parseTok, parseFloat, digitsVal, tokenizePath, splitTok, splitSkip, nth])
    (by simp +decide [parseTok, parseFloat, digitsVal, tokenizePath, splitTok, splitSkip, nth])
    (by simp +decide [parseTok, parseFloat, digitsVal, tokenizePath, splitTok, splitSkip, nth])
    (by decide) (by decide) (by decide) (by decide) rfl rfl (by simpa using hs)
  refine ⟨arrowE, by simpa [wctx2] using ha1, by simpa [wctx2] using ha2, ha3, ?_,
    ha5, ha6, ha7, ha8⟩
  rw [ha4]
  norm_num

/-- C4 (amended): in a unit group with both an image and a label, the
image element and the label carry the same single newly allocated group
id (distinct from both element ids), and the label's final y equals the
image's y plus the image's height minus the fixed margin 4; this
exceeds the image's y plus half its height exactly when the image is
taller than 8 pixels. -/
theorem c4_image_label_group
    (pre post : List SvgItem) (itemId : String) (subs : List SubItem)
    (ia : ImageA) (ta : TextA) (ctx0 : Ctx) (scene : Scene)
    (hpre : runItems pre initCtx = .ok ctx0)
    (hcl : classify subs none none none none = .ok ⟨none, none, some ta, some ia⟩)
    (hs : fromSvgItems (pre ++ SvgItem.g itemId subs :: post) = .ok scene) :
    ∃ imgE textE,
      nth default scene.elements ctx0.elements.length = imgE ∧
      nth default scene.elements (ctx0.elements.length + 1) = textE ∧
      ctx0.elements.length + 1 < scene.elements.length ∧
      imgE.type = "image" ∧ textE.type = "text" ∧
      imgE.groupIds = [ctx0.nextId + 2] ∧ textE.groupIds = [ctx0.nextId + 2] ∧
      ctx0.nextId + 2 ≠ imgE.id ∧ ctx0.nextId + 2 ≠ textE.id ∧
      textE.y = (imageABounds ia).y + (imageABounds ia).height - 4 ∧
      ((imageABounds ia).height > 8 →
        textE.y > (imageABounds ia).y + (imageABounds ia).height / 2) := by
  obtain ⟨ctx1, hg, hc1⟩ : ∃ c, processGroup itemId subs ctx0 = .ok c ∧ c = _ :=
    ⟨_, (processGroup_eq_of_classify itemId subs ctx0 _ hcl).trans
        (build_image_text itemId ctx0.nextId ia ta (registerGroup itemId ctx0)), rfl⟩
  have htwo := scene_two_elts pre post itemId subs ctx0 ctx1 scene
    ctx0.store.length (ctx0.store.length + 1)
    (imageGrouped ctx0.nextId (imageABounds ia) (image_id ia.href) (ctx0.nextId + 2))
    (labelUnderImage (ctx0.nextId + 1) (imageABounds ia)
      ((findFontSize ta.style).getD 12) (pyStrip ta.content) (ctx0.nextId + 2))
    hpre hg
    (by rw [hc1]; simp [registerGroup])
    (by rw [hc1]; simp [registerGroup])
    (by rw [hc1]; simp [registerGroup])
    (by rw [hc1]; simp only [registerGroup]; exact nth_append_len default _ _ _)
    (by rw [hc1]; simp only [registerGroup]; exact nth_append_len1 default _ _ _ _)
    hs
  obtain ⟨hlt, hA, hB⟩ := htwo
  obtain ⟨a1, a2, -, -, -, -, a7, -, -, -, -, -, -, -, -⟩ := hA
  obtain ⟨b1, b2, -, b4, -, -, b7, -, -, -, -, -, -, -, -⟩ := hB
  have hy : (labelUnderImage (ctx0.nextId + 1) (imageABounds ia)
      ((findFontSize ta.style).getD 12) (pyStrip ta.content) (ctx0.nextId + 2)).y =
      (imageABounds ia).y + (imageABounds ia).height - 4 := by
    simp only [labelUnderImage, mkTextElt]
    ring
  refine ⟨_, _, rfl, rfl, hlt, by rw [a2]; rfl, by rw [b2]; rfl,
    by rw [a7]; rfl, by rw [b7]; rfl, ?_, ?_, ?_, ?_⟩
  · rw [a1]
    simp [imageGrouped, mkImageElt]
  · rw [b1]
    simp [labelUnderImage, mkTextElt]
  · rw [b4, hy]
  · intro hh
    rw [b4, hy]
    linarith

/-- The concrete image-plus-label unit group with image height exactly
8, the breaking point of the original claim. -/
def c4Item : SvgItem :=
  SvgItem.g "I"
    [SubItem.shapeGroup [ShapeChild.image 0 0 16 8 "data:p"],
     SubItem.text 8 4 "" "im"]

theorem c4_run : runItems [c4Item] initCtx = .ok
    { nextId := 3, svgXcMap := [("I", 0)],
      shapeBounds := [(0, ⟨0, 0, 16, 8⟩)], shapeEltMap := [(0, 0)],
      store := [imageGrouped 0 ⟨0, 0, 16, 8⟩ (image_id "data:p") 2,
                labelUnderImage 1 ⟨0, 0, 16, 8⟩ 12 "im" 2],
      elements := [0, 1],
      files := [(image_id "data:p", ⟨"image/svg+xml", image_id "data:p", "data:p"⟩)],
      lastBounds := some ⟨0, 0, 16, 8⟩ } := by
  have hib : imageABounds ⟨0, 0, 16, 8, "data:p"⟩ = ⟨0, 0, 16, 8⟩ := by
    simp only [imageABounds, pyTrunc, Bounds.mk.injEq]
    norm_num
  have hg := (processGroup_eq_of_classify "I"
      [SubItem.shapeGroup [ShapeChild.image 0 0 16 8 "data:p"],
       SubItem.text 8 4 "" "im"] initCtx
      ⟨none, none, some ⟨8, 4, "", "im"⟩, some ⟨0, 0, 16, 8, "data:p"⟩⟩ rfl).trans
    (build_image_text "I" initCtx.nextId ⟨0, 0, 16, 8, "data:p"⟩ ⟨8, 4, "", "im"⟩
      (registerGroup "I" initCtx))
  rw [show ([c4Item] : List SvgItem) = [SvgItem.g "I"
    [SubItem.shapeGroup [ShapeChild.image 0 0 16 8 "data:p"],
     SubItem.text 8 4 "" "im"]] from rfl]
  rw [runItems_single_ok _ _ _ _ hg, hib]
  rfl

/-- C4 counterexample: with an image of height 8 the label's final y
equals the image's y plus half the image's height, so the strict
inequality of the claim fails. -/
theorem c4_counterexample :
    ∃ imgE textE,
      fromSvgItems [c4Item] = .ok (sceneOf [c4Item]) ∧
      nth default (sceneOf [c4Item]).elements 0 = imgE ∧
      nth default (sceneOf [c4Item]).elements 1 = textE ∧
      imgE.type = "image" ∧ textE.type = "text" ∧
      imgE.groupIds = [2] ∧ textE.groupIds = [2] ∧
      imgE.y = 0 ∧ imgE.height = 8 ∧ textE.y = 4 ∧
      ¬ textE.y > imgE.y + imgE.height / 2 := by
  have hs := sceneOf_spec _ _ c4_run
  have hrw : sceneOf [c4Item] = mkScene
      { nextId := 3, svgXcMap := [("I", 0)],
        shapeBounds := [(0, ⟨0, 0, 16, 8⟩)], shapeEltMap := [(0, 0)],
        store := [imageGrouped 0 ⟨0, 0, 16, 8⟩ (image_id "data:p") 2,
                  labelUnderImage 1 ⟨0, 0, 16, 8⟩ 12 "im" 2],
        elements := [0, 1],
        files := [(image_id "data:p", ⟨"image/svg+xml", image_id "data:p", "data:p"⟩)],
        lastBounds := some ⟨0, 0, 16, 8⟩ } := by
    unfold sceneOf
    rw [fromSvgItems_of_run _ _ c4_run]
    rfl
  refine ⟨imageGrouped 0 ⟨0, 0, 16, 8⟩ (image_id "data:p") 2,
      labelUnderImage 1 ⟨0, 0, 16, 8⟩ 12 "im" 2,
      hs, ?_, ?_, rfl, rfl, rfl, rfl, rfl, rfl, ?_, ?_⟩
  · rw [hrw]
    rfl
  · rw [hrw]
    rfl
  · simp only [labelUnderImage, mkTextElt]
    norm_num
  · simp only [labelUnderImage, mkTextElt, imageGrouped, mkImageElt]
    norm_num

theorem c4_witness :
    ∃ imgE textE,
      nth default (sceneOf [wUnitA, wUnitB, c4Item]).elements 2 = imgE ∧
      nth default (sceneOf [wUnitA, wUnitB, c4Item]).elements 3 = textE ∧
      3 < (sceneOf [wUnitA, wUnitB, c4Item]).elements.length ∧
      imgE.type = "image" ∧ textE.type = "text" ∧
      imgE.groupIds = [4] ∧ textE.groupIds = [4] ∧
      (4 : ℕ) ≠ imgE.id ∧ (4 : ℕ) ≠ textE.id ∧
      textE.y = (imageABounds ⟨0, 0, 16, 8, "data:p"⟩).y +
        (imageABounds ⟨0, 0, 16, 8, "data:p"⟩).height - 4 ∧
      ((imageABounds ⟨0, 0, 16, 8, "data:p"⟩).height > 8 →
        textE.y > (imageABounds ⟨0, 0, 16, 8, "data:p"⟩).y +
          (imageABounds ⟨0, 0, 16, 8, "data:p"⟩).height / 2) := by
  obtain ⟨ctx1, hgE, -⟩ : ∃ c,
      processGroup "I"
        [SubItem.shapeGroup [ShapeChild.image 0 0 16 8 "data:p"],
         SubItem.text 8 4 "" "im"] wctx2 = .ok c ∧ c = _ :=
    ⟨_, (processGroup_eq_of_classify "I"
          [SubItem.shapeGroup [ShapeChild.image 0 0 16 8 "data:p"],
           SubItem.text 8 4 "" "im"] wctx2
          ⟨none, none, some ⟨8, 4, "", "im"⟩, some ⟨0, 0, 16, 8, "data:p"⟩⟩ rfl).trans
        (build_image_text "I" wctx2.nextId ⟨0, 0, 16, 8, "data:p"⟩ ⟨8, 4, "", "im"⟩
          (registerGroup "I" wctx2)), rfl⟩
  have hrun : runItems [wUnitA, wUnitB, c4Item] initCtx = .ok ctx1 := by
    rw [show ([wUnitA, wUnitB, c4Item] : List SvgItem) =
      [wUnitA, wUnitB] ++ [c4Item] from rfl, runItems_append_ok _ _ _ _ wrun2]
    exact runItems_single_ok _ _ _ _ hgE
  have hs := sceneOf_spec _ _ hrun
  have h := c4_image_label_group [wUnitA, wUnitB] [] "I"
    [SubItem.shapeGroup [ShapeChild.image 0 0 16 8 "data:p"],
     SubItem.text 8 4 "" "im"]
    ⟨0, 0, 16, 8, "data:p"⟩ ⟨8, 4, "", "im"⟩ wctx2 (sceneOf [wUnitA, wUnitB, c4Item])
    wrun2 rfl (by simpa using hs)
  simpa [wctx2] using h

/-- C8: the label of a rectangle unit group has the font size extracted
from its inline style (or the default 12), is vertically centered at
the shape with the fixed margin 4, has its width padded by the font
size and its height one and a half font sizes. -/
theorem c8_label_geometry
    (pre post : List SvgItem) (itemId : String) (subs : List SubItem)
    (ra : RectA) (ta : TextA) (ctx0 : Ctx) (scene : Scene)
    (hpre : runItems pre initCtx = .ok ctx0)
    (hcl : classify subs none none none none = .ok ⟨some ra, none, some ta, none⟩)
    (hs : fromSvgItems (pre ++ SvgItem.g itemId subs :: post) = .ok scene) :
    ∃ textE,
      nth default scene.elements (ctx0.elements.length + 1) = textE ∧
      ctx0.elements.length + 1 < scene.elements.length ∧
      textE.type = "text" ∧
      textE.fontSize = some (((findFontSize ta.style).getD 12 : ℕ) : ℚ) ∧
      textE.y = (rectABounds ra).y + (rectABounds ra).height / 2 - 4 -
        (((findFontSize ta.style).getD 12 : ℕ) : ℚ) / 2 ∧
      textE.width = (rectABounds ra).width + (((findFontSize ta.style).getD 12 : ℕ) : ℚ) ∧
      textE.height = (((findFontSize ta.style).getD 12 : ℕ) : ℚ) * 3 / 2 := by
  obtain ⟨ctx1, hg, hc1⟩ : ∃ c, processGroup itemId subs ctx0 = .ok c ∧ c = _ :=
    ⟨_, (processGroup_eq_of_classify itemId subs ctx0 _ hcl).trans
        (build_rect_text itemId ctx0.nextId ra ta (registerGroup itemId ctx0)), rfl⟩
  have htwo := scene_two_elts pre post itemId subs ctx0 ctx1 scene
    ctx0.store.length (ctx0.store.length + 1)
    (rectLabeled ctx0.nextId (rectABounds ra) (ctx0.nextId + 1))
    (labelInRect (ctx0.nextId + 1) (rectABounds ra) ((findFontSize ta.style).getD 12)
      (pyStrip ta.content) ctx0.nextId)
    hpre hg
    (by rw [hc1]; simp [registerGroup])
    (by rw [hc1]; simp [registerGroup])
    (by rw [hc1]; simp [registerGroup])
    (by rw [hc1]; simp only [registerGroup]; exact nth_append_len default _ _ _)
    (by rw [hc1]; simp only [registerGroup]; exact nth_append_len1 default _ _ _ _)
    hs
  obtain ⟨hlt, -, hB⟩ := htwo
  obtain ⟨-, b2, -, b4, b5, b6, -, -, -, -, b11, -, -, -, -⟩ := hB
  exact ⟨_, rfl, hlt, by rw [b2]; rfl, by rw [b11]; rfl, by rw [b4]; rfl,
    by rw [b5]; rfl, by rw [b6]; rfl⟩

theorem c8_witness :
    ∃ textE,
      nth default (sceneOf [c3Item]).elements 1 = textE ∧
      1 < (sceneOf [c3Item]).elements.length ∧
      textE.type = "text" ∧
      textE.fontSize = some (16 : ℚ) ∧
      textE.y = (41 : ℚ) ∧ textE.width = (116 : ℚ) ∧ textE.height = (24 : ℚ) := by
  obtain ⟨textE, h1, h2, h3, h4, h5, h6, h7⟩ := c8_label_geometry [] [] "A"
    [SubItem.shapeGroup [ShapeChild.rect 10 20 100 66],
     SubItem.text 60 50 "font-size:16px" " lbl "]
    ⟨10, 20, 100, 66⟩ ⟨60, 50, "font-size:16px", " lbl "⟩ initCtx (sceneOf [c3Item])
    rfl rfl (by simpa [c3Item] using c3_eval)
  have hfs : (findFontSize "font-size:16px").getD 12 = 16 := by decide
  have hb : rectABounds ⟨10, 20, 100, 66⟩ = ⟨10, 20, 100, 66⟩ := by
    simp only [rectABounds, pyTrunc, Bounds.mk.injEq]
    norm_num
  refine ⟨textE, by simpa [initCtx] using h1, by simpa [initCtx] using h2, h3, ?_, ?_, ?_, ?_⟩
  · rw [h4, hfs]
    norm_num
  · rw [h5, hfs, hb]
    norm_num
  · rw [h6, hfs, hb]
    norm_num
  · rw [h7, hfs]
    norm_num

/-- A successful whole-document run means every one of its groups was
processed successfully; decompose at a chosen group. -/
theorem run_decomp_group (pre post : List SvgItem) (itemId : String)
    (subs : List SubItem) (ctx0 : Ctx) (scene : Scene)
    (hpre : runItems pre initCtx = .ok ctx0)
    (hs : fromSvgItems (pre ++ SvgItem.g itemId subs :: post) = .ok scene) :
    ∃ ctx1, processGroup itemId subs ctx0 = .ok ctx1 ∧
      runItems (pre ++ [SvgItem.g itemId subs]) initCtx = .ok ctx1 := by
  unfold fromSvgItems at hs
  rw [runItems_append_ok pre _ initCtx ctx0 hpre] at hs
  cases hg : processGroup itemId subs ctx0 with
  | error e =>
      rw [show runItems (SvgItem.g itemId subs :: post) ctx0 = .error e from by
        simp [runItems, hg]] at hs
      exact absurd hs (by simp)
  | ok ctx1 =>
      refine ⟨ctx1, rfl, ?_⟩
      rw [runItems_append_ok pre _ initCtx ctx0 hpre]
      exact runItems_single_ok _ _ _ _ hg

/-- C5: for an edge group carrying explicit curve data whose endpoint
names resolve, the run fails with the path-format error exactly when
the data tokenizes to fewer than 10 tokens or token 0 is not M or
token 3 is not C; on such data the whole translation fails with that
error and no scene is produced. -/
theorem c5_path_format
    (pre post : List SvgItem) (itemId : String) (subs : List SubItem)
    (dstr u1 u2 : String) (sA sB : Nat) (ctx0 : Ctx)
    (hpre : runItems pre initCtx = .ok ctx0)
    (hcl : classify subs none none none none = .ok ⟨none, some ⟨some dstr⟩, none, none⟩)
    (hp : parseEdgeId itemId = some (u1, u2))
    (hne1 : u1 ≠ itemId) (hne2 : u2 ≠ itemId)
    (h1 : assoc ctx0.svgXcMap u1 = some sA)
    (h2 : assoc ctx0.svgXcMap u2 = some sB) :
    ((∃ l, processGroup itemId subs ctx0 = .error (.pathFormat l)) ↔
      TokenBad (tokenizePath dstr)) ∧
    (TokenBad (tokenizePath dstr) →
      processGroup itemId subs ctx0 = .error (.pathFormat (tokenizePath dstr)) ∧
      fromSvgItems (pre ++ SvgItem.g itemId subs :: post) =
        .error (.pathFormat (tokenizePath dstr)) ∧
      ∀ scene, fromSvgItems (pre ++ SvgItem.g itemId subs :: post) ≠ .ok scene) := by
  have hre := processGroup_eq_of_classify itemId subs ctx0
    ⟨none, some ⟨some dstr⟩, none, none⟩ hcl
  have h1' := (assoc_registered itemId u1 ctx0 hne1).trans h1
  have h2' := (assoc_registered itemId u2 ctx0 hne2).trans h2
  constructor
  · rw [hre]
    exact edge_pathFormat_iff itemId ctx0.nextId dstr _ u1 u2 sA sB hp h1' h2'
  · intro hbad
    have herr : processGroup itemId subs ctx0 =
        .error (.pathFormat (tokenizePath dstr)) := by
      rw [hre]
      exact build_edge_geom_error itemId ctx0.nextId ⟨some dstr⟩ _ u1 u2 sA sB _
        hp h1' h2' (parsePathGeom_bad dstr hbad)
    have hfe := fromSvgItems_error_of pre post itemId subs ctx0 _ hpre herr
    refine ⟨herr, hfe, fun scene hsc => ?_⟩
    rw [hfe] at hsc
    exact absurd hsc (by simp)

theorem c5_witness :
    TokenBad (tokenizePath "M 1 2 C 3 4") ∧
    fromSvgItems [wUnitA, wUnitB,
      SvgItem.g "(A -> B)[2]" [SubItem.path (some "M 1 2 C 3 4")]] =
      .error (.pathFormat (tokenizePath "M 1 2 C 3 4")) := by
  have h := (c5_path_format [wUnitA, wUnitB] [] "(A -> B)[2]"
    [SubItem.path (some "M 1 2 C 3 4")] "M 1 2 C 3 4" "A" "B" 0 1 wctx2
    wrun2 rfl (by decide) (by decide) (by decide) (by decide) (by decide)).2 (by decide)
  exact ⟨by decide, h.2.1⟩

/-- C9: the blob id is a deterministic function of the payload, and the
scene produced from a run containing an image group holds exactly one
blob entry under that image's content-addressed id, with every key of
the blob map occurring at most once. -/
theorem c9_blob_dedup
    (pre post : List SvgItem) (itemId : String) (subs : List SubItem)
    (c : Classified) (ia : ImageA) (ctx0 : Ctx) (scene : Scene)
    (hpre : runItems pre initCtx = .ok ctx0)
    (hcl : classify subs none none none none = .ok c)
    (him : c.image = some ia)
    (hs : fromSvgItems (pre ++ SvgItem.g itemId subs :: post) = .ok scene) :
    (∀ p q : String, p = q → image_id p = image_id q) ∧
    keyCount (image_id ia.href) scene.files = 1 ∧
    (∀ k, keyCount k scene.files ≤ 1) := by
  obtain ⟨ctx1, hg, hrun1⟩ := run_decomp_group pre post itemId subs ctx0 scene hpre hs
  rw [processGroup_eq_of_classify itemId subs ctx0 c hcl] at hg
  obtain ⟨hins, -⟩ :=
    processClassified_files itemId ctx0.nextId c (registerGroup itemId ctx0) ctx1 hg
  have hfi := hins ia him
  have h01 : keyCount (image_id ia.href) ctx0.files ≤ 1 := by
    obtain ⟨-, -, -, -, -, -, E7⟩ := runItems_evolve pre initCtx ctx0 hpre
    have := E7 (image_id ia.href)
    simpa [initCtx, keyCount] using this
  have hk1 : keyCount (image_id ia.href) ctx1.files = 1 := by
    rw [hfi]
    rw [show (registerGroup itemId ctx0).files = ctx0.files from rfl]
    rw [keyCount_dictInsert_self]
    omega
  have hs' : fromSvgItems ((pre ++ [SvgItem.g itemId subs]) ++ post) = .ok scene := by
    rw [List.append_assoc]
    exact hs
  have hafter :=
    scene_files_after (pre ++ [SvgItem.g itemId subs]) post ctx1 scene hrun1 hs'
      (image_id ia.href)
  have hu := scene_files_unique _ scene hs (image_id ia.href)
  exact ⟨fun p q hpq => by rw [hpq], by omega, scene_files_unique _ scene hs⟩

theorem c9_witness :
    image_id "data:p" = image_id "data:p" ∧
    keyCount (image_id "data:p") (sceneOf [c4Item]).files = 1 ∧
    ∀ k, keyCount k (sceneOf [c4Item]).files ≤ 1 := by
  have h := c9_blob_dedup [] [] "I"
    [SubItem.shapeGroup [ShapeChild.image 0 0 16 8 "data:p"], SubItem.text 8 4 "" "im"]
    ⟨none, none, some ⟨8, 4, "", "im"⟩, some ⟨0, 0, 16, 8, "data:p"⟩⟩
    ⟨0, 0, 16, 8, "data:p"⟩ initCtx (sceneOf [c4Item])
    rfl rfl rfl (sceneOf_spec _ _ c4_run)
  exact ⟨h.1 _ _ rfl, h.2.1, h.2.2⟩

/-- C10: every top-level group, edges included, is registered with a
freshly allocated id before its contents are classified: processing
literally classifies on the registered context, a successful result's
name map starts with the new entry, every visited group ends up
registered, and a registered name never triggers the
unresolved-reference failure. -/
theorem c10_registration :
    (∀ itemId subs ctx, processGroup itemId subs ctx =
      classifyAndBuild itemId subs ctx.nextId (registerGroup itemId ctx)) ∧
    (∀ itemId subs ctx c, processGroup itemId subs ctx = .ok c →
      c.svgXcMap = (itemId, ctx.nextId) :: ctx.svgXcMap) ∧
    (∀ items ctx c, runItems items ctx = .ok c →
      ∀ itemId subs, SvgItem.g itemId subs ∈ items →
      assoc c.svgXcMap itemId ≠ none) ∧
    (∀ itemId subs ctx a, assoc ctx.svgXcMap a ≠ none →
      processGroup itemId subs ctx ≠ .error (.unresolvedReference a)) :=
  ⟨fun _ _ _ => rfl, processGroup_svgXcMap, runItems_registers, processGroup_not_unresolved⟩

theorem c10_witness :
    (processGroup "A" [SubItem.shapeGroup [ShapeChild.rect 0 0 100 66]] initCtx =
      classifyAndBuild "A" [SubItem.shapeGroup [ShapeChild.rect 0 0 100 66]] 0
        (registerGroup "A" initCtx)) ∧
    assoc wctx2.svgXcMap "A" ≠ none ∧
    processGroup "(A -> B)[1]" [SubItem.path none] wctx2 ≠
      .error (.unresolvedReference "A") := by
  refine ⟨c10_registration.1 "A" _ initCtx, ?_, ?_⟩
  · exact c10_registration.2.2.1 [wUnitA, wUnitB] initCtx wctx2 wrun2 "A"
      [SubItem.shapeGroup [ShapeChild.rect 0 0 100 66]] (by simp [wUnitA])
  · exact c10_registration.2.2.2 "(A -> B)[1]" [SubItem.path none] wctx2 "A" (by decide)
